import Mathlib

/-!
Verification development for the pai-voice-server setup package.

The JavaScript sources under setup/ are shallowly embedded:
pure helpers become Lean functions, and the filesystem, the persisted
metadata record and the launchd supervisor become an explicit state that
every operation threads.  Machine-level details are modelled as follows:

* file contents are abstract values (`Nat`); the SHA-256 digest used by
  file-ops.js is modelled by an injective fingerprint (`contentHash`),
  since no claim depends on hash collisions;
* a write failure (EACCES and similar) at a path is modelled by the path
  being listed in `FS.unwritable`;
* the JSON round trip of the metadata record (readJSON/writeJSON) is
  modelled as the identity, so the record file is carried as its parsed
  value (`State.meta`), and existence of the record file corresponds to
  `State.meta` being `some`;
* external commands (launchctl, lsof, curl) are modelled by outcome
  parameters: an `Except String String` for a command run through
  exec.js, and strings or a `Nat → Bool` probe for the health check.
-/

set_option autoImplicit false

namespace Pai

/-- Association-list lookup with string keys; models reading a field of a
JavaScript object used as a map. -/
def lookupA {α : Type} : List (String × α) → String → Option α
  | [], _ => none
  | (k, v) :: rest, p => if k = p then some v else lookupA rest p

/-- Association-list insert-or-replace; models assigning a field of a
JavaScript object used as a map. -/
def setA {α : Type} : List (String × α) → String → α → List (String × α)
  | [], p, v => [(p, v)]
  | (k, w) :: rest, p, v =>
      if k = p then (p, v) :: rest else (k, w) :: setA rest p v

/-- Association-list removal of a key. -/
def eraseA {α : Type} : List (String × α) → String → List (String × α)
  | [], _ => []
  | (k, w) :: rest, p => if k = p then rest else (k, w) :: eraseA rest p

theorem lookupA_setA_self {α : Type} (l : List (String × α)) (p : String) (v : α) :
    lookupA (setA l p v) p = some v := by
  induction l with
  | nil => simp [setA, lookupA]
  | cons kv rest ih =>
      by_cases h : kv.1 = p
      · simp [setA, h, lookupA]
      · simp [setA, h, lookupA, ih]

theorem lookupA_setA_ne {α : Type} (l : List (String × α)) (p q : String) (v : α)
    (h : p ≠ q) : lookupA (setA l p v) q = lookupA l q := by
  induction l with
  | nil => simp [setA, lookupA, h]
  | cons kv rest ih =>
      by_cases hk : kv.1 = p
      · simp [setA, hk, lookupA, h]
      · simp [setA, hk, lookupA, ih]

/-- Content plus permission bits of one file; `content` stands for the raw
bytes and `mode` for the stat mode copied by chmod in file-ops.js. -/
structure FileData where
  content : Nat
  mode : Nat
  deriving DecidableEq, Repr

/-- Filesystem state: the regular files, the directories that exist, and
the set of paths at which a write or unlink raises (permission model). -/
structure FS where
  files : List (String × FileData)
  dirs : List String
  unwritable : List String
  deriving DecidableEq, Repr

/-- Reading a file; `none` models a missing file (existsSync false). -/
def FS.lookupFile (fs : FS) (p : String) : Option FileData :=
  lookupA fs.files p

/-- Fingerprint of file bytes; models the SHA-256 digest of
calculateFileHash in file-ops.js as an injective map. -/
def contentHash (c : Nat) : Nat := c

/-- Errors thrown by the embedded file and service operations, mirroring
the Error objects thrown in file-ops.js and launchagent.js. -/
inductive FileError where
  | sourceMissing (p : String)
  | copyFailed (s t : String)
  | removeFailed (p : String)
  | mkdirFailed (p : String)
  | sourceNotFound (rel : String)
  | plistFailed
  | plistNotFound
  | cmdFailed (msg : String)
  deriving DecidableEq, Repr

/-- Message text of an error, mirroring the message strings built in the
JavaScript throw sites. -/
def FileError.message : FileError → String
  | .sourceMissing p => "Source file not found: " ++ p
  | .copyFailed s t => "Failed to copy " ++ s ++ " to " ++ t
  | .removeFailed p => "Failed to remove " ++ p
  | .mkdirFailed p => "Failed to create directory " ++ p
  | .sourceNotFound rel => "Source file not found: " ++ rel
  | .plistFailed => "Failed to create plist"
  | .plistNotFound => "LaunchAgent plist not found. Run install first."
  | .cmdFailed msg => "Failed command: " ++ msg

/-- Home directory of the installing user (os.homedir()). -/
def homeDir : String := "/Users/user"

/-- Install directory, from paths.js getInstallPath. -/
def installPath : String := homeDir ++ "/.claude/pai-voice-server"

/-- Metadata record path, from paths.js getMetadataPath. -/
def metadataPath : String := installPath ++ "/.metadata.json"

/-- Installed server file path, from paths.js getServerPath. -/
def serverPath : String := installPath ++ "/server.ts"

/-- Installed voices file path, from paths.js getVoicesPath. -/
def voicesPath : String := installPath ++ "/voices.json"

/-- LaunchAgent plist path, from paths.js getLaunchAgentPath. -/
def launchAgentPath : String :=
  homeDir ++ "/Library/LaunchAgents/com.pai.voice-server.plist"

/-- Combined log path, from paths.js getLogPath. -/
def logPath : String := homeDir ++ "/Library/Logs/pai-voice-server.log"

/-- Directory holding the bundled distribution files of the package
(setup/dist), the first candidate tried by resolveSourcePath. -/
def packageDistDir : String := "/opt/pai/setup/dist"

/-- Development repository fallback directory, the second candidate tried
by resolveSourcePath. -/
def packageDevDir : String := "/opt/pai"

/-- Version of the package being installed.  Modelled from the spec: the
value comes from the build-time package.json of the setup package, which
is not part of the sources; only its being a fixed string matters. -/
def packageVersion : String := "1.1.0"

/-- Path resolution from paths.js resolveSourcePath: try the bundled dist
directory, fall back to the development directory, throw otherwise. -/
def resolveSourcePath (fs : FS) (rel : String) : Except FileError String :=
  let pkgPath := packageDistDir ++ "/" ++ rel
  if (fs.lookupFile pkgPath).isSome then .ok pkgPath
  else
    let devPath := packageDevDir ++ "/" ++ rel
    if (fs.lookupFile devPath).isSome then .ok devPath
    else .error (.sourceNotFound rel)

/-- One installable component, from the manifest.js component table. -/
structure Component where
  name : String
  type : String
  source : String
  target : String
  preserveOnUpdate : Bool
  deriving DecidableEq, Repr

/-- The server component of manifest.js (required, not preserved). -/
def serverComponent : Component :=
  ⟨"server", "required", "server.ts", serverPath, false⟩

/-- The voices component of manifest.js (optional, preserved on update). -/
def voicesComponent : Component :=
  ⟨"voices", "optional", "voices.json", voicesPath, true⟩

/-- All components in manifest order, from manifest.js getAllComponents. -/
def getAllComponents : List Component := [serverComponent, voicesComponent]

/-- Component lookup by name, from manifest.js getComponent. -/
def getComponent (name : String) : Option Component :=
  getAllComponents.find? (fun c => c.name = name)

/-- Split of a character list at every slash, modelling the split used
by path.dirname; written at the character level so that the kernel can
evaluate it on concrete paths. -/
def splitSlash : List Char → List (List Char)
  | [] => [[]]
  | c :: cs =>
      let r := splitSlash cs
      if c = Char.ofNat 47 then [] :: r
      else
        match r with
        | [] => [[c]]
        | g :: gs => (c :: g) :: gs

/-- Joining of path segments with slashes, the inverse of `splitSlash`. -/
def joinSlash : List (List Char) → List Char
  | [] => []
  | [g] => g
  | g :: gs => g ++ Char.ofNat 47 :: joinSlash gs

/-- Parent directory of a path, modelling path.dirname. -/
def dirname (p : String) : String :=
  let parts := splitSlash p.data
  if parts.length ≤ 1 then "." else String.mk (joinSlash parts.dropLast)

/-- Directory creation from file-ops.js ensureDirectoryExists: no-op when
present, side-effect free under dry-run, raising on a write failure. -/
def ensureDirectoryExists (fs : FS) (dirPath : String) (dryRun : Bool) :
    Except FileError (FS × Bool) :=
  if dirPath ∈ fs.dirs then .ok (fs, false)
  else if dryRun then .ok (fs, true)
  else if dirPath ∈ fs.unwritable then .error (.mkdirFailed dirPath)
  else .ok ({ fs with dirs := dirPath :: fs.dirs }, true)

/-- File copy from file-ops.js copyFile.  Note that the dry-run test comes
first, before the source-existence and target-existence checks, exactly as
in the source; a dry-run copy therefore checks nothing. -/
def copyFile (fs : FS) (source target : String) (dryRun overwrite : Bool) :
    Except FileError (FS × Bool) :=
  if dryRun then .ok (fs, true)
  else
    match fs.lookupFile source with
    | none => .error (.sourceMissing source)
    | some fd =>
        if (fs.lookupFile target).isSome && !overwrite then .ok (fs, false)
        else
          match ensureDirectoryExists fs (dirname target) false with
          | .error e => .error e
          | .ok (fs1, _) =>
              if target ∈ fs1.unwritable then .error (.copyFailed source target)
              else .ok ({ fs1 with files := setA fs1.files target fd }, true)

/-- File removal from file-ops.js removeFile: succeeds reporting false on
an absent path, checks existence before the dry-run branch. -/
def removeFile (fs : FS) (p : String) (dryRun : Bool) :
    Except FileError (FS × Bool) :=
  if (fs.lookupFile p).isNone then .ok (fs, false)
  else if dryRun then .ok (fs, true)
  else if p ∈ fs.unwritable then .error (.removeFailed p)
  else .ok ({ fs with files := eraseA fs.files p }, true)

/-- Recursive directory removal from file-ops.js removeDirectory; rmSync
with force never raises, so the real branch always succeeds. -/
def removeDirectory (fs : FS) (p : String) (dryRun : Bool) :
    Except FileError (FS × Bool) :=
  if p ∉ fs.dirs then .ok (fs, false)
  else if dryRun then .ok (fs, true)
  else
    .ok ({ fs with
            files := fs.files.filter (fun kv => !((p ++ "/").isPrefixOf kv.1)),
            dirs := fs.dirs.filter
              (fun d => !(d == p) && !((p ++ "/").isPrefixOf d)) }, true)

/-- Timestamped backup from file-ops.js backupFile: `none` for an absent
source, and a caught copy failure also yields `none` (with a warning)
rather than raising. -/
def backupFile (fs : FS) (p : String) (ts : String) (dryRun : Bool) :
    FS × Option String :=
  match fs.lookupFile p with
  | none => (fs, none)
  | some fd =>
      let backupPath := p ++ ".backup-" ++ ts
      if dryRun then (fs, some backupPath)
      else if backupPath ∈ fs.unwritable then (fs, none)
      else ({ fs with files := setA fs.files backupPath fd }, some backupPath)

/-- Hash of the file at a path, from file-ops.js calculateFileHash:
`none` models the null returned for a missing or unreadable file. -/
def calculateFileHash (fs : FS) (p : String) : Option Nat :=
  (fs.lookupFile p).map (fun fd => contentHash fd.content)

/-- Per-component record inside the metadata file (metadata.js). -/
structure ComponentMeta where
  version : String
  hash : Option Nat
  modified : Bool
  installDate : String
  lastUpdate : Option String := none
  deriving DecidableEq, Repr

/-- The persisted installation record (metadata.js), carried in parsed
form; the service block of the JSON object is flattened into the two
string fields. -/
structure Metadata where
  version : String
  installDate : String
  lastUpdate : Option String := none
  installedComponents : List (String × ComponentMeta) := []
  serviceName : String := "com.pai.voice-server"
  serviceStatus : String := "installed"
  deriving DecidableEq, Repr

/-- Whole system state threaded through the orchestrators: the
filesystem, the parsed metadata record (none when the record file is
absent), and whether the supervisor currently has the service loaded. -/
structure State where
  fs : FS
  meta : Option Metadata
  supLoaded : Bool
  deriving DecidableEq, Repr

/-- Record read from metadata.js readMetadata; the JSON parse is the
identity on the carried value. -/
def readMetadata (st : State) : Option Metadata := st.meta

/-- Installation test from metadata.js isInstalled: record file present
and the primary server file present. -/
def isInstalled (st : State) : Bool :=
  st.meta.isSome && (st.fs.lookupFile serverPath).isSome

/-- Version of the installed record, from metadata.js
getInstalledVersion. -/
def getInstalledVersion (st : State) : Option String :=
  (readMetadata st).map (fun m => m.version)

/-- Component-record construction loop of metadata.js createMetadata:
one fresh entry per component whose target file exists. -/
def createEntries (fs : FS) (v ts : String) :
    List Component → List (String × ComponentMeta)
  | [] => []
  | c :: rest =>
      match fs.lookupFile c.target with
      | none => createEntries fs v ts rest
      | some fd =>
          (c.name, ⟨v, some (contentHash fd.content), false, ts, none⟩)
            :: createEntries fs v ts rest

/-- Initial metadata creation from metadata.js createMetadata; returns the
state after the (dry-run guarded) write together with the record. -/
def createMetadata (st : State) (dryRun : Bool) (ts : String) :
    State × Metadata :=
  let m : Metadata :=
    { version := packageVersion, installDate := ts,
      installedComponents := createEntries st.fs packageVersion ts getAllComponents }
  if dryRun then (st, m) else ({ st with meta := some m }, m)

/-- Component-record refresh loop of metadata.js updateAfterInstall: for
every component whose target file exists, insert a fresh entry or update
the existing one with the hash recomputed from the file on disk. -/
def updateEntries (fs : FS) (v ts : String) :
    List Component → List (String × ComponentMeta) → List (String × ComponentMeta)
  | [], entries => entries
  | c :: rest, entries =>
      match fs.lookupFile c.target with
      | none => updateEntries fs v ts rest entries
      | some fd =>
          let h := some (contentHash fd.content)
          let entries' :=
            match lookupA entries c.name with
            | none => setA entries c.name ⟨v, h, false, ts, none⟩
            | some cm =>
                setA entries c.name
                  { cm with version := v, hash := h, modified := false,
                            lastUpdate := some ts }
          updateEntries fs v ts rest entries'

/-- Metadata refresh from metadata.js updateAfterInstall: fresh record
unless updating an existing one, then the component loop, then the
(dry-run guarded) write. -/
def updateAfterInstall (st : State) (dryRun isUpdate : Bool) (ts : String) :
    State × Metadata :=
  let m0 : Metadata :=
    match readMetadata st, isUpdate with
    | some m, true =>
        { m with version := packageVersion, lastUpdate := some ts }
    | _, _ => { version := packageVersion, installDate := ts }
  let m :=
    { m0 with installedComponents :=
        updateEntries st.fs packageVersion ts getAllComponents m0.installedComponents }
  if dryRun then (st, m) else ({ st with meta := some m }, m)

/-- Customization-detection loop of metadata.js getCustomizedFiles: a
component is flagged when it has a record entry, its target file exists,
and the recomputed hash differs from the stored hash. -/
def customizedLoop (fs : FS) (m : Metadata) : List Component → List String
  | [] => []
  | c :: rest =>
      match lookupA m.installedComponents c.name with
      | none => customizedLoop fs m rest
      | some cm =>
          match fs.lookupFile c.target with
          | none => customizedLoop fs m rest
          | some fd =>
              if some (contentHash fd.content) ≠ cm.hash then
                c.name :: customizedLoop fs m rest
              else customizedLoop fs m rest

/-- Customization detection from metadata.js getCustomizedFiles; returns
an empty list when no record exists. -/
def getCustomizedFiles (st : State) : List String :=
  match readMetadata st with
  | none => []
  | some m => customizedLoop st.fs m getAllComponents

/-- Result of a command run through exec.js. -/
structure ExecResult where
  success : Bool
  stdout : String
  stderr : String
  deriving DecidableEq, Repr

/-- Substring test, modelling the JavaScript String.includes. -/
def hasSubstr (s pat : String) : Bool := (s.splitOn pat).length ≥ 2

/-- Command runner from exec.js: dry-run short-circuits to success, and
with ignoreError set a failing command is returned as a success-false
result instead of raising. -/
def exec (outcome : Except String String) (dryRun _silent ignoreError : Bool) :
    Except String ExecResult :=
  if dryRun then .ok ⟨true, "", ""⟩
  else
    match outcome with
    | .ok out => .ok ⟨true, out, ""⟩
    | .error msg =>
        if !ignoreError then .error msg
        else .ok ⟨false, "", msg⟩

/-- Abstract rendering of the plist XML produced by launchagent.js
generatePlist; a constant because manifest and paths are constant. -/
def generatePlistData : FileData := ⟨1000, 420⟩

/-- Plist creation from launchagent.js createPlist: dry-run writes
nothing, otherwise the LaunchAgents directory is ensured and the plist
file written, raising on a write failure. -/
def createPlist (st : State) (dryRun : Bool) : Except FileError State :=
  if dryRun then .ok st
  else
    let dir := dirname launchAgentPath
    let fs0 :=
      if dir ∈ st.fs.dirs then st.fs else { st.fs with dirs := dir :: st.fs.dirs }
    if launchAgentPath ∈ st.fs.unwritable then .error .plistFailed
    else .ok { st with fs := { fs0 with files := setA fs0.files launchAgentPath generatePlistData } }

/-- Plist removal from launchagent.js removePlist. -/
def removePlist (st : State) (dryRun : Bool) : Except FileError (State × Bool) :=
  if (st.fs.lookupFile launchAgentPath).isNone then .ok (st, false)
  else if dryRun then .ok (st, true)
  else if launchAgentPath ∈ st.fs.unwritable then .error .plistFailed
  else .ok ({ st with fs := { st.fs with files := eraseA st.fs.files launchAgentPath } }, true)

/-- Service load from launchagent.js load.  The launchctl run goes
through `exec` with ignoreError set, exactly as in the source, so the
catch branch that rethrows non-tolerated failures is kept but is
reachable only if `exec` raises. -/
def load (st : State) (outcome : Except String String) (dryRun : Bool) :
    Except FileError (State × Bool) :=
  if (st.fs.lookupFile launchAgentPath).isNone then .error .plistNotFound
  else if dryRun then .ok (st, true)
  else
    match exec outcome false true true with
    | .ok r => .ok (if r.success then { st with supLoaded := true } else st, true)
    | .error msg =>
        if hasSubstr msg "already loaded" then .ok (st, true)
        else .error (.cmdFailed msg)

/-- Service unload from launchagent.js unload, with the same exec
structure as `load` and the tolerated not-found condition. -/
def unload (st : State) (outcome : Except String String) (dryRun : Bool) :
    Except FileError (State × Bool) :=
  if (st.fs.lookupFile launchAgentPath).isNone then .ok (st, false)
  else if dryRun then .ok (st, true)
  else
    match exec outcome false true true with
    | .ok r => .ok (if r.success then { st with supLoaded := false } else st, true)
    | .error msg =>
        if hasSubstr msg "Could not find" then .ok (st, true)
        else .error (.cmdFailed msg)

/-- Health probe from launchagent.js isRunning: false when the port
listing is empty, otherwise true exactly when the health response
contains the literal substring healthy; every failure inside is caught,
so the probe is a total boolean. -/
def isRunning (portOut healthOut : String) : Bool :=
  if portOut = "" then false else hasSubstr healthOut "healthy"

/-- Observable actions the orchestrators perform, used as a call trace. -/
inductive Ev where
  | probeReq (t : Nat)
  | sleepReq (t : Nat)
  | loadReq
  | unloadReq
  | backupReq (p : String)
  | copyReq (source target : String)
  | plistReq
  | metaReq
  | removeReq (p : String)
  | warnEv
  deriving DecidableEq, Repr

/-- Poll loop of launchagent.js waitForStart over discrete time in
milliseconds: while the elapsed time is below the timeout, probe, and
sleep one second on failure.  The fuel argument only bounds the
recursion; `waitForStart` passes enough fuel for the loop to exit by its
own condition.  Returns the verdict, the elapsed time at return, and the
trace of probe and sleep actions. -/
def waitLoop (probe : Nat → Bool) (timeoutMs : Nat) :
    Nat → Nat → Bool × Nat × List Ev
  | now, 0 => (false, now, [])
  | now, fuel + 1 =>
      if now < timeoutMs then
        if probe now then (true, now, [Ev.probeReq now])
        else
          let r := waitLoop probe timeoutMs (now + 1000) fuel
          (r.1, r.2.1, Ev.probeReq now :: Ev.sleepReq now :: r.2.2)
      else (false, now, [])

/-- Service start wait from launchagent.js waitForStart: poll the health
probe every second until success or until `timeoutSec` seconds elapse. -/
def waitForStart (probe : Nat → Bool) (timeoutSec : Nat) : Bool × Nat × List Ev :=
  waitLoop probe (timeoutSec * 1000) 0 (timeoutSec + 1)

/-- Structured result returned by the update orchestrator (updater.js);
fields absent from a given JavaScript return object carry their default
value here. -/
structure UpdateResult where
  success : Bool
  reason : Option String := none
  component : Option String := none
  error : Option String := none
  alreadyUpToDate : Bool := false
  fromVersion : Option String := none
  toVersion : Option String := none
  updatedComponents : List String := []
  preservedComponents : List String := []
  dryRun : Bool := false
  deriving DecidableEq, Repr

/-- Per-component loop of updater.js update (lines 85 to 124): preserve a
customized preservable component, back up a customized non-preservable
one (ignoring a failed backup), then copy the shipped file over the
target; a required-component failure aborts, an optional one warns.
Returns the state, the updated and preserved name lists, the call trace,
and the fatal failure if any. -/
def updateLoop (customized : List String) (dryRun : Bool) (ts : String) :
    List Component → State →
      State × List String × List String × List Ev × Option (String × String)
  | [], st => (st, [], [], [], none)
  | c :: rest, st =>
      if customized.contains c.name && c.preserveOnUpdate then
        let r := updateLoop customized dryRun ts rest st
        (r.1, r.2.1, c.name :: r.2.2.1, r.2.2.2.1, r.2.2.2.2)
      else
        let stepB :=
          if customized.contains c.name && !dryRun then
            let b := backupFile st.fs c.target ts dryRun
            ({ st with fs := b.1 }, [Ev.backupReq c.target])
          else (st, ([] : List Ev))
        let st1 := stepB.1
        match resolveSourcePath st1.fs c.source with
        | .error e =>
            if c.type = "required" then
              (st1, [], [], stepB.2, some (c.name, e.message))
            else
              let r := updateLoop customized dryRun ts rest st1
              (r.1, r.2.1, r.2.2.1, stepB.2 ++ Ev.warnEv :: r.2.2.2.1, r.2.2.2.2)
        | .ok src =>
            match copyFile st1.fs src c.target dryRun true with
            | .error e =>
                if c.type = "required" then
                  (st1, [], [], stepB.2 ++ [Ev.copyReq src c.target],
                   some (c.name, e.message))
                else
                  let r := updateLoop customized dryRun ts rest st1
                  (r.1, r.2.1, r.2.2.1,
                   stepB.2 ++ Ev.copyReq src c.target :: Ev.warnEv :: r.2.2.2.1,
                   r.2.2.2.2)
            | .ok (fs2, _) =>
                let st2 := { st1 with fs := fs2 }
                let r := updateLoop customized dryRun ts rest st2
                (r.1, c.name :: r.2.1, r.2.2.1,
                 stepB.2 ++ Ev.copyReq src c.target :: r.2.2.2.1, r.2.2.2.2)

/-- Stop step of updater.js update (lines 63 to 76): unload when the
service was running, downgrading an unload failure to a warning. -/
def updateStop (st : State) (wasRunning : Bool)
    (outcome : Except String String) (dryRun : Bool) : State × List Ev :=
  if wasRunning then
    match unload st outcome dryRun with
    | .ok r => (r.1, [Ev.unloadReq])
    | .error _ => (st, [Ev.unloadReq, Ev.warnEv])
  else (st, [])

/-- Plist regeneration step of updater.js update (lines 126 to 133),
downgrading a failure to a warning. -/
def updatePlistStep (st : State) (dryRun : Bool) : State × List Ev :=
  match createPlist st dryRun with
  | .ok st1 => (st1, [Ev.plistReq])
  | .error _ => (st, [Ev.plistReq, Ev.warnEv])

/-- Restart step of updater.js update (lines 144 to 167): reload the
service if it had been running, wait for it outside dry-run, and
downgrade any failure to a warning. -/
def updateLoadStep (st : State) (wasRunning dryRun : Bool)
    (outcome : Except String String) (probe : Nat → Bool) : State × List Ev :=
  if wasRunning then
    match load st outcome dryRun with
    | .ok r =>
        if !dryRun then
          let _started := waitForStart probe 10
          (r.1, [Ev.loadReq])
        else (r.1, [Ev.loadReq])
    | .error _ => (st, [Ev.loadReq, Ev.warnEv])
  else (st, [])

/-- The update orchestrator from updater.js update: refuse when not
installed, short-circuit when already at the manifest version without
force, detect customizations, stop the service, run the component loop,
regenerate the plist, refresh the metadata, and restart the service if it
had been running. -/
def update (st : State) (dryRun force : Bool) (portOut healthOut : String)
    (unloadOutcome loadOutcome : Except String String) (probe : Nat → Bool)
    (ts : String) : State × UpdateResult × List Ev :=
  if !(isInstalled st) then
    (st, { success := false, reason := some "not_installed" }, [])
  else
    let currentVersion := getInstalledVersion st
    if currentVersion == some packageVersion && !force then
      (st, { success := true, alreadyUpToDate := true }, [])
    else
      let customized := getCustomizedFiles st
      let wasRunning := isRunning portOut healthOut
      let s1 := updateStop st wasRunning unloadOutcome dryRun
      match updateLoop customized dryRun ts getAllComponents s1.1 with
      | (st2, _, _, evs2, some fail) =>
          (st2, { success := false, reason := some "update_failed",
                  component := some fail.1, error := some fail.2 },
           s1.2 ++ evs2)
      | (st2, updated, preserved, evs2, none) =>
          let s3 := updatePlistStep st2 dryRun
          let s4 := updateAfterInstall s3.1 dryRun true ts
          let s5 := updateLoadStep s4.1 wasRunning dryRun loadOutcome probe
          (s5.1, { success := true, fromVersion := currentVersion,
                   toVersion := some packageVersion,
                   updatedComponents := updated,
                   preservedComponents := preserved, dryRun := dryRun },
           s1.2 ++ evs2 ++ s3.2 ++ [Ev.metaReq] ++ s5.2)

/-- Boolean CLI flags parsed by install.js parseArgs. -/
structure CliOptions where
  dryRun : Bool := false
  yes : Bool := false
  verbose : Bool := false
  force : Bool := false
  preserveLogs : Bool := false
  backup : Bool := false
  deriving DecidableEq, Repr

/-- Outcome of argument parsing: an early exit (help or version) with its
exit code, or the parsed command token and flags. -/
inductive ParseResult where
  | earlyExit (code : Nat)
  | parsed (command : Option String) (opts : CliOptions)
  deriving DecidableEq, Repr

/-- Character-list prefix test (kernel-friendly), used to model the
String.prototype.startsWith calls of parseArgs. -/
def charsStartWith : List Char → List Char → Bool
  | _, [] => true
  | [], _ :: _ => false
  | c :: cs, p :: ps => if c = p then charsStartWith cs ps else false

/-- Prefix test on strings, modelling String.prototype.startsWith. -/
def strStartsWith (a pre : String) : Bool :=
  charsStartWith a.data pre.data

/-- Argument scan of install.js parseArgs: help and version exit
immediately, known flags set options, the first token not starting with a
dash becomes the command, and everything else is ignored. -/
def parseArgsLoop : List String → Option String → CliOptions → ParseResult
  | [], cmd, opts => .parsed cmd opts
  | a :: rest, cmd, opts =>
      if a = "--help" || a = "-h" then .earlyExit 0
      else if a = "--version" || a = "-v" then .earlyExit 0
      else if a = "--dry-run" then parseArgsLoop rest cmd { opts with dryRun := true }
      else if a = "--yes" || a = "-y" then parseArgsLoop rest cmd { opts with yes := true }
      else if a = "--verbose" then parseArgsLoop rest cmd { opts with verbose := true }
      else if a = "--force" || a = "-f" then parseArgsLoop rest cmd { opts with force := true }
      else if a = "--preserve-logs" then parseArgsLoop rest cmd { opts with preserveLogs := true }
      else if a = "--backup" then parseArgsLoop rest cmd { opts with backup := true }
      else if !(strStartsWith a "--") && !(strStartsWith a "-") then
        (if cmd.isNone then parseArgsLoop rest (some a) opts
         else parseArgsLoop rest cmd opts)
      else parseArgsLoop rest cmd opts

/-- Argument parsing from install.js parseArgs. -/
def parseArgs (args : List String) : ParseResult :=
  parseArgsLoop args none {}

/-- The command table keys of install.js. -/
def knownCommands : List String :=
  ["install", "update", "uninstall", "start", "stop", "restart", "status", "verify"]

/-- Entry point from install.js main.  The command semantics is a
parameter: `runCmd` returns either a thrown fault or the success field of
the returned result object (`none` when the result or the field is
absent).  The function returns the process exit code and the command that
was executed, if any. -/
def mainEntry (args : List String)
    (runCmd : String → CliOptions → Except Unit (Option Bool)) :
    Nat × Option String :=
  match parseArgs args with
  | .earlyExit c => (c, none)
  | .parsed cmdOpt opts =>
      let command := cmdOpt.getD "status"
      if command ∉ knownCommands then (1, none)
      else
        match runCmd command opts with
        | .ok r => (if r = some false then 1 else 0, some command)
        | .error _ => (1, some command)

/-- Directory probed (and created) by the environment validation of
environment.js: the expanded form of the tilde-claude path. -/
def claudeDir : String := homeDir ++ "/.claude"

/-- Directory-permission probe from environment.js
checkDirectoryPermissions: creates the directory when it is missing,
then writes a test file and unlinks it, reporting writable.  Note the
function takes no dry-run flag in the source, so it mutates the
filesystem even when the calling orchestrator simulates; a pre-existing
test file would be overwritten and then deleted, exactly as the
writeFileSync and unlinkSync pair does. -/
def checkDirectoryPermissions (fs : FS) (dirPath : String) : FS × Bool :=
  if dirPath ∉ fs.dirs ∧ dirPath ∈ fs.unwritable then (fs, false)
  else
    let fs1 := if dirPath ∈ fs.dirs then fs else { fs with dirs := dirPath :: fs.dirs }
    let testFile := dirPath ++ "/.write-test"
    if testFile ∈ fs1.unwritable then (fs1, false)
    else ({ fs1 with files := eraseA (setA fs1.files testFile ⟨0, 0⟩) testFile }, true)

/-- Outcomes of the read-only external probes of environment.js
(platform, node version, bun, launchctl); the port and env-file checks
only produce warnings and do not influence validity. -/
structure EnvChecks where
  platformOk : Bool
  nodeOk : Bool
  bunOk : Bool
  launchctlOk : Bool
  deriving DecidableEq, Repr

/-- Environment validation from environment.js validateEnvironment:
valid iff the four fatal probes pass and the claude directory is
writable; the permission check mutates the filesystem (see
`checkDirectoryPermissions`), the rest is read-only. -/
def validateEnvironment (fs : FS) (checks : EnvChecks) : FS × Bool :=
  let perm := checkDirectoryPermissions fs claudeDir
  (perm.1, checks.platformOk && checks.nodeOk && checks.bunOk
    && checks.launchctlOk && perm.2)

/-- Structured result returned by the install orchestrator
(installer.js); absent fields carry their default value. -/
structure InstallResult where
  success : Bool
  reason : Option String := none
  component : Option String := none
  error : Option String := none
  installedComponents : List String := []
  dryRun : Bool := false
  deriving DecidableEq, Repr

/-- Per-component copy loop of installer.js install (step 5): resolve
the shipped file and copy it over the target; a required-component
failure aborts, an optional one warns. -/
def installLoop (dryRun : Bool) :
    List Component → State → State × List String × List Ev × Option (String × String)
  | [], st => (st, [], [], none)
  | c :: rest, st =>
      match resolveSourcePath st.fs c.source with
      | .error e =>
          if c.type = "required" then (st, [], [], some (c.name, e.message))
          else
            let r := installLoop dryRun rest st
            (r.1, r.2.1, Ev.warnEv :: r.2.2.1, r.2.2.2)
      | .ok src =>
          match copyFile st.fs src c.target dryRun true with
          | .error e =>
              if c.type = "required" then
                (st, [], [Ev.copyReq src c.target], some (c.name, e.message))
              else
                let r := installLoop dryRun rest st
                (r.1, r.2.1, Ev.copyReq src c.target :: Ev.warnEv :: r.2.2.1, r.2.2.2)
          | .ok (fs2, _) =>
              let st2 : State := { st with fs := fs2 }
              let r := installLoop dryRun rest st2
              (r.1, c.name :: r.2.1, Ev.copyReq src c.target :: r.2.2.1, r.2.2.2)

/-- Service-start step of installer.js install (step 7): load, wait for
the probe outside dry-run, and downgrade any failure to a warning. -/
def installLoadStep (st : State) (dryRun : Bool) (o : Except String String)
    (probe : Nat → Bool) : State × List Ev :=
  match load st o dryRun with
  | .ok r =>
      if !dryRun then
        let _started := waitForStart probe 10
        (r.1, [Ev.loadReq])
      else (r.1, [Ev.loadReq])
  | .error _ => (st, [Ev.loadReq, Ev.warnEv])

/-- The install orchestrator from installer.js install: refuse when
already installed without force, validate the environment (which writes
even in dry-run), create the install directory, copy components, create
the plist, start the service and write the metadata record. -/
def install (st : State) (dryRun force : Bool) (checks : EnvChecks)
    (loadOutcome : Except String String) (probe : Nat → Bool) (ts : String) :
    State × InstallResult × List Ev :=
  if isInstalled st && !force then
    (st, { success := false, reason := some "already_installed" }, [])
  else
    let env := validateEnvironment st.fs checks
    let st1 : State := { st with fs := env.1 }
    if !env.2 then
      (st1, { success := false, reason := some "environment_check_failed" }, [])
    else
      match ensureDirectoryExists st1.fs installPath dryRun with
      | .error e =>
          (st1, { success := false, reason := some "directory_creation_failed",
                  error := some e.message }, [])
      | .ok (fs2, _) =>
          let st2 : State := { st1 with fs := fs2 }
          match installLoop dryRun getAllComponents st2 with
          | (st3, _, evs3, some fail) =>
              (st3, { success := false, reason := some "component_install_failed",
                      component := some fail.1, error := some fail.2 }, evs3)
          | (st3, comps, evs3, none) =>
              match createPlist st3 dryRun with
              | .error e =>
                  (st3, { success := false, reason := some "launchagent_creation_failed",
                          error := some e.message }, evs3 ++ [Ev.plistReq])
              | .ok st4 =>
                  let s5 := installLoadStep st4 dryRun loadOutcome probe
                  let s6 := createMetadata s5.1 dryRun ts
                  (s6.1, { success := true, installedComponents := comps,
                           dryRun := dryRun },
                   evs3 ++ [Ev.plistReq] ++ s5.2 ++ [Ev.metaReq])

/-- Trimmed outputs of the supervisor listing and the two health-probe
commands, the external inputs of launchagent.js getStatus. -/
structure SupProbes where
  listOut : String
  portOut : String
  healthOut : String
  deriving DecidableEq, Repr

/-- Derived service status from launchagent.js getStatus: loaded iff the
launchctl listing is nonempty, running from the health probe, plus the
plist-file existence and the textual status. -/
structure ServiceStatus where
  loaded : Bool
  running : Bool
  plistExists : Bool
  status : String
  deriving DecidableEq, Repr

/-- Status snapshot from launchagent.js getStatus. -/
def getStatus (st : State) (pr : SupProbes) : ServiceStatus :=
  let loaded := if pr.listOut = "" then false else true
  let running := isRunning pr.portOut pr.healthOut
  { loaded := loaded, running := running,
    plistExists := (st.fs.lookupFile launchAgentPath).isSome,
    status := if running then "running"
      else if loaded then "loaded but not responding" else "stopped" }

/-- Structured result of the stop command (stop.js). -/
structure StopResult where
  success : Bool
  reason : Option String := none
  alreadyStopped : Bool := false
  error : Option String := none
  dryRun : Bool := false
  deriving DecidableEq, Repr

/-- The stop orchestrator from stop.js: refuse when not installed,
no-op success when already stopped (outside dry-run), unload, then
re-check the status after a two-second pause. -/
def stop (st : State) (dryRun : Bool) (pr1 pr2 : SupProbes)
    (unloadOutcome : Except String String) : State × StopResult × List Ev :=
  if !(isInstalled st) then
    (st, { success := false, reason := some "not_installed" }, [])
  else
    let status := getStatus st pr1
    if !status.running && !dryRun then
      (st, { success := true, alreadyStopped := true }, [])
    else
      match unload st unloadOutcome dryRun with
      | .ok r =>
          if !dryRun then
            let status2 := getStatus r.1 pr2
            if !status2.running then
              (r.1, { success := true }, [Ev.unloadReq, Ev.sleepReq 2000])
            else
              (r.1, { success := false, reason := some "stop_incomplete" },
               [Ev.unloadReq, Ev.sleepReq 2000])
          else (r.1, { success := true, dryRun := true }, [Ev.unloadReq])
      | .error e =>
          (st, { success := false, reason := some "stop_failed",
                 error := some e.message }, [Ev.unloadReq])

/-- Structured result of the start command (start.js). -/
structure StartResult where
  success : Bool
  reason : Option String := none
  alreadyRunning : Bool := false
  error : Option String := none
  dryRun : Bool := false
  deriving DecidableEq, Repr

/-- The start orchestrator from start.js: refuse when not installed,
no-op success when already running (outside dry-run), load, then wait
for the health probe outside dry-run. -/
def start (st : State) (dryRun : Bool) (pr : SupProbes)
    (loadOutcome : Except String String) (probe : Nat → Bool) :
    State × StartResult × List Ev :=
  if !(isInstalled st) then
    (st, { success := false, reason := some "not_installed" }, [])
  else
    let status := getStatus st pr
    if status.running && !dryRun then
      (st, { success := true, alreadyRunning := true }, [])
    else
      match load st loadOutcome dryRun with
      | .ok r =>
          if !dryRun then
            let w := waitForStart probe 10
            if w.1 then (r.1, { success := true }, Ev.loadReq :: w.2.2)
            else
              (r.1, { success := false, reason := some "start_timeout" },
               Ev.loadReq :: w.2.2)
          else (r.1, { success := true, dryRun := true }, [Ev.loadReq])
      | .error e =>
          (st, { success := false, reason := some "start_failed",
                 error := some e.message }, [Ev.loadReq])

/-- Structured result of the restart command (restart.js). -/
structure RestartResult where
  success : Bool
  reason : Option String := none
  deriving DecidableEq, Repr

/-- The restart orchestrator from restart.js: stop, pause outside
dry-run, then start, propagating the first failure (a stop that reports
already stopped does not count as a failure). -/
def restart (st : State) (dryRun : Bool) (pr1 pr2 prS : SupProbes)
    (unloadOutcome loadOutcome : Except String String) (probe : Nat → Bool) :
    State × RestartResult × List Ev :=
  let s := stop st dryRun pr1 pr2 unloadOutcome
  if !s.2.1.success && !s.2.1.alreadyStopped then
    (s.1, { success := false, reason := some "stop_failed" }, s.2.2)
  else
    let t := start s.1 dryRun prS loadOutcome probe
    if !t.2.1.success then
      (t.1, { success := false, reason := some "start_failed" }, s.2.2 ++ t.2.2)
    else (t.1, { success := true }, s.2.2 ++ t.2.2)

/-- Recursive tree copy, modelling the cpSync call of uninstaller.js:
every file under the source directory is duplicated under the
destination directory, keeping its relative path. -/
def cpTree (fs : FS) (srcDir dstDir : String) : FS :=
  if srcDir ∈ fs.dirs then
    { fs with
      dirs := dstDir :: fs.dirs,
      files := fs.files ++
        (fs.files.filter (fun kv => strStartsWith kv.1 (srcDir ++ "/"))).map
          (fun kv => (String.mk (dstDir.data ++ kv.1.data.drop srcDir.data.length), kv.2)) }
  else fs

/-- Structured result of the uninstall command (uninstaller.js). -/
structure UninstallResult where
  success : Bool
  reason : Option String := none
  error : Option String := none
  removedInstallation : Bool := false
  preservedLogs : Bool := false
  createdBackup : Bool := false
  dryRun : Bool := false
  deriving DecidableEq, Repr

/-- Stop step of uninstaller.js uninstall (lines 54 to 67): unload when
the service is loaded or running, downgrading a failure to a warning. -/
def uninstallStopStep (st : State) (active : Bool)
    (outcome : Except String String) (dryRun : Bool) : State × List Ev :=
  if active then
    match unload st outcome dryRun with
    | .ok r => (r.1, [Ev.unloadReq])
    | .error _ => (st, [Ev.unloadReq, Ev.warnEv])
  else (st, [])

/-- Plist-removal step of uninstaller.js uninstall (lines 69 to 80),
downgrading a failure to a warning. -/
def uninstallPlistStep (st : State) (dryRun : Bool) : State × List Ev :=
  match removePlist st dryRun with
  | .ok r => (r.1, [Ev.removeReq launchAgentPath])
  | .error _ => (st, [Ev.removeReq launchAgentPath, Ev.warnEv])

/-- Log-file step of uninstaller.js uninstall (lines 106 to 122): remove
the log file unless logs are preserved, downgrading a failure to a
warning. -/
def uninstallLogStep (st : State) (preserveLogs dryRun : Bool) : State × List Ev :=
  if preserveLogs then (st, [])
  else
    match removeFile st.fs logPath dryRun with
    | .ok (fsL, _) => ({ st with fs := fsL }, [Ev.removeReq logPath])
    | .error _ => (st, [Ev.removeReq logPath, Ev.warnEv])

/-- The uninstall orchestrator from uninstaller.js: refuse when not
installed, snapshot customizations, unload when loaded or running,
remove the plist, optionally back up the install tree, remove the
install directory, and remove the log file unless preserved.  The
record file lives inside the install directory, so its non-dry removal
also clears the carried record value. -/
def uninstall (st : State) (dryRun preserveLogs backup : Bool) (pr : SupProbes)
    (unloadOutcome : Except String String) (ts : String) :
    State × UninstallResult × List Ev :=
  if !(isInstalled st) then
    (st, { success := false, reason := some "not_installed" }, [])
  else
    let customized := getCustomizedFiles st
    let status := getStatus st pr
    let s1 := uninstallStopStep st (status.running || status.loaded) unloadOutcome dryRun
    let s2 := uninstallPlistStep s1.1 dryRun
    let s3 :=
      if backup && !dryRun && !customized.isEmpty then
        ({ s2.1 with fs := cpTree s2.1.fs installPath (installPath ++ ".backup-" ++ ts) },
         [Ev.backupReq installPath])
      else (s2.1, ([] : List Ev))
    match removeDirectory s3.1.fs installPath dryRun with
    | .error e =>
        (s3.1, { success := false, reason := some "removal_failed",
                 error := some e.message },
         s1.2 ++ s2.2 ++ s3.2 ++ [Ev.removeReq installPath])
    | .ok (fsD, _) =>
        let newMeta := if dryRun then s3.1.meta else none
        let st4 : State := { s3.1 with fs := fsD, meta := newMeta }
        let s5 := uninstallLogStep st4 preserveLogs dryRun
        (s5.1, { success := true, removedInstallation := true,
                 preservedLogs := preserveLogs,
                 createdBackup := backup && !customized.isEmpty,
                 dryRun := dryRun },
         s1.2 ++ s2.2 ++ s3.2 ++ [Ev.removeReq installPath] ++ s5.2)

/-! Helper lemmas: string disambiguation, frame properties of the file
and service primitives, and the metadata bookkeeping lemmas shared by
several theorems below. -/

theorem append_ne_of_take_ne (base tail other : String) (n : Nat)
    (hlen : n ≤ base.data.length) (hne : base.data.take n ≠ other.data.take n) :
    base ++ tail ≠ other := by
  intro h
  apply hne
  have hd : (base ++ tail).data = base.data ++ tail.data := by
    simp [String.data_append]
  rw [← h, hd, List.take_append_of_le_length hlen]

theorem append_ne_self (base tail : String) (h : tail.data ≠ []) :
    base ++ tail ≠ base := by
  intro he
  have hd : (base ++ tail).data = base.data ++ tail.data := by
    simp [String.data_append]
  have := congrArg String.data he
  rw [hd] at this
  have : tail.data = [] := by
    have hlen := congrArg List.length this
    simp at hlen
    exact List.eq_nil_of_length_eq_zero hlen
  exact h this

theorem backupPath_ne_voicesPath (ts : String) :
    serverPath ++ ".backup-" ++ ts ≠ voicesPath :=
  append_ne_of_take_ne (serverPath ++ ".backup-") ts voicesPath 38
    (by decide) (by decide)

theorem backupPath_ne_serverPath (ts : String) :
    serverPath ++ ".backup-" ++ ts ≠ serverPath :=
  append_ne_of_take_ne (serverPath ++ ".backup-") ts serverPath 47
    (by decide) (by decide)

theorem backupPath_ne_launchAgentPath (ts : String) :
    serverPath ++ ".backup-" ++ ts ≠ launchAgentPath :=
  append_ne_of_take_ne (serverPath ++ ".backup-") ts launchAgentPath 13
    (by decide) (by decide)

theorem ensureDirectoryExists_ok (fs : FS) (d : String) (fs1 : FS) (b : Bool)
    (h : ensureDirectoryExists fs d false = .ok (fs1, b)) :
    fs1.files = fs.files ∧ fs1.unwritable = fs.unwritable ∧ d ∈ fs1.dirs := by
  unfold ensureDirectoryExists at h
  by_cases h1 : d ∈ fs.dirs
  · simp [h1] at h
    obtain ⟨h4, _⟩ := h
    subst h4
    exact ⟨rfl, rfl, h1⟩
  · by_cases h2 : d ∈ fs.unwritable
    · simp [h1, h2] at h
    · simp [h1, h2] at h
      obtain ⟨h4, _⟩ := h
      subst h4
      exact ⟨rfl, rfl, by simp⟩

theorem copyFile_success (fs : FS) (s t : String) (ow : Bool) (fd : FileData)
    (hs : fs.lookupFile s = some fd)
    (hskip : ((fs.lookupFile t).isSome && !ow) = false)
    (hdir : dirname t ∈ fs.dirs ∨ dirname t ∉ fs.unwritable)
    (hw : t ∉ fs.unwritable) :
    ∃ fs1, copyFile fs s t false ow = .ok (fs1, true) ∧
      fs1.lookupFile t = some fd ∧ fs1.unwritable = fs.unwritable ∧
      dirname t ∈ fs1.dirs ∧ ∀ p, p ≠ t → fs1.lookupFile p = fs.lookupFile p := by
  have hE : ∃ fsE b, ensureDirectoryExists fs (dirname t) false = .ok (fsE, b) := by
    unfold ensureDirectoryExists
    by_cases hmem : dirname t ∈ fs.dirs
    · exact ⟨fs, false, by simp [hmem]⟩
    · have hd : dirname t ∉ fs.unwritable := hdir.resolve_left hmem
      exact ⟨{ fs with dirs := dirname t :: fs.dirs }, true, by simp [hmem, hd]⟩
  obtain ⟨fsE, b, hEok⟩ := hE
  obtain ⟨hfiles, hunw, hdmem⟩ := ensureDirectoryExists_ok fs (dirname t) fsE b hEok
  have hwE : t ∉ fsE.unwritable := hunw ▸ hw
  refine ⟨{ fsE with files := setA fsE.files t fd }, ?_, ?_, hunw, hdmem, ?_⟩
  · unfold copyFile
    rw [hs, hEok]
    simp [hskip, hwE]
  · simp [FS.lookupFile, lookupA_setA_self]
  · intro p hp
    simp only [FS.lookupFile]
    rw [lookupA_setA_ne _ _ _ _ (fun he => hp he.symm), hfiles]

theorem copyFile_ok_frame (fs : FS) (s t : String) (ow : Bool) (fs1 : FS) (b : Bool)
    (h : copyFile fs s t false ow = .ok (fs1, b)) :
    fs1.unwritable = fs.unwritable ∧ ∀ p, p ≠ t → fs1.lookupFile p = fs.lookupFile p := by
  unfold copyFile at h
  cases hs : fs.lookupFile s with
  | none => rw [hs] at h; simp at h
  | some fd =>
      rw [hs] at h
      simp only [Bool.false_eq_true, if_false] at h
      split at h
      · simp at h
        obtain ⟨h1, _⟩ := h
        subst h1
        exact ⟨rfl, fun p _ => rfl⟩
      · cases hE : ensureDirectoryExists fs (dirname t) false with
        | error e => rw [hE] at h; simp at h
        | ok r =>
            rw [hE] at h
            obtain ⟨hfiles, hunw, _⟩ :=
              ensureDirectoryExists_ok fs (dirname t) r.1 r.2 (by rw [hE])
            simp only at h
            split at h
            · simp at h
            · simp at h
              obtain ⟨h1, _⟩ := h
              subst h1
              refine ⟨hunw, fun p hp => ?_⟩
              simp only [FS.lookupFile]
              rw [lookupA_setA_ne _ _ _ _ (fun he => hp he.symm), hfiles]

theorem unload_frame (st : State) (o : Except String String) (d : Bool)
    (st1 : State) (b : Bool) (h : unload st o d = .ok (st1, b)) :
    st1.fs = st.fs ∧ st1.meta = st.meta := by
  unfold unload at h
  split at h
  · simp at h
    obtain ⟨h3, -⟩ := h
    subst h3
    exact ⟨rfl, rfl⟩
  · split at h
    · simp at h
      obtain ⟨h3, -⟩ := h
      subst h3
      exact ⟨rfl, rfl⟩
    · cases hx : exec o false true true with
      | ok r =>
          rw [hx] at h
          simp at h
          obtain ⟨h3, -⟩ := h
          subst h3
          split <;> exact ⟨rfl, rfl⟩
      | error msg =>
          rw [hx] at h
          simp only at h
          split at h
          · simp at h
            obtain ⟨h3, -⟩ := h
            subst h3
            exact ⟨rfl, rfl⟩
          · simp at h

theorem load_frame (st : State) (o : Except String String) (d : Bool)
    (st1 : State) (b : Bool) (h : load st o d = .ok (st1, b)) :
    st1.fs = st.fs ∧ st1.meta = st.meta := by
  unfold load at h
  split at h
  · simp at h
  · split at h
    · simp at h
      obtain ⟨h3, -⟩ := h
      subst h3
      exact ⟨rfl, rfl⟩
    · cases hx : exec o false true true with
      | ok r =>
          rw [hx] at h
          simp at h
          obtain ⟨h3, -⟩ := h
          subst h3
          split <;> exact ⟨rfl, rfl⟩
      | error msg =>
          rw [hx] at h
          simp only at h
          split at h
          · simp at h
            obtain ⟨h3, -⟩ := h
            subst h3
            exact ⟨rfl, rfl⟩
          · simp at h

theorem createPlist_ok_frame (st : State) (d : Bool) (st1 : State)
    (h : createPlist st d = .ok st1) :
    st1.meta = st.meta ∧ st1.fs.unwritable = st.fs.unwritable ∧
      ∀ p, p ≠ launchAgentPath → st1.fs.lookupFile p = st.fs.lookupFile p := by
  unfold createPlist at h
  split at h
  · simp at h
    subst h
    exact ⟨rfl, rfl, fun _ _ => rfl⟩
  · simp only at h
    split at h
    · simp at h
    · simp only [Except.ok.injEq] at h
      subst h
      refine ⟨rfl, ?_, fun p hp => ?_⟩
      · split <;> rfl
      · simp only [FS.lookupFile]
        split
        · rw [lookupA_setA_ne _ _ _ _ (fun he => hp he.symm)]
        · rw [lookupA_setA_ne _ _ _ _ (fun he => hp he.symm)]


theorem updateStop_frame (st : State) (w : Bool) (o : Except String String)
    (d : Bool) : (updateStop st w o d).1.fs = st.fs ∧ (updateStop st w o d).1.meta = st.meta := by
  unfold updateStop
  split
  · cases hu : unload st o d with
    | ok r => exact unload_frame st o d r.1 r.2 (by rw [hu])
    | error e => exact ⟨rfl, rfl⟩
  · exact ⟨rfl, rfl⟩

theorem updatePlistStep_frame (st : State) (d : Bool) :
    (updatePlistStep st d).1.meta = st.meta ∧
      (updatePlistStep st d).1.fs.unwritable = st.fs.unwritable ∧
      ∀ p, p ≠ launchAgentPath →
        (updatePlistStep st d).1.fs.lookupFile p = st.fs.lookupFile p := by
  unfold updatePlistStep
  cases hc : createPlist st d with
  | ok st1 => exact createPlist_ok_frame st d st1 hc
  | error e => exact ⟨rfl, rfl, fun _ _ => rfl⟩

theorem updateLoadStep_frame (st : State) (w d : Bool) (o : Except String String)
    (probe : Nat → Bool) :
    (updateLoadStep st w d o probe).1.fs = st.fs ∧
      (updateLoadStep st w d o probe).1.meta = st.meta := by
  unfold updateLoadStep
  split
  · cases hl : load st o d with
    | ok r =>
        cases hd : (!d) <;>
          simpa [hd] using load_frame st o d r.1 r.2 (by rw [hl])
    | error e => exact ⟨rfl, rfl⟩
  · exact ⟨rfl, rfl⟩

theorem getCustomizedFiles_congr (s1 s2 : State) (hfs : s1.fs = s2.fs)
    (hm : s1.meta = s2.meta) : getCustomizedFiles s1 = getCustomizedFiles s2 := by
  unfold getCustomizedFiles readMetadata
  rw [hfs, hm]


theorem updateEntries_preserve (fs : FS) (v ts : String) :
    ∀ (comps : List Component) (es : List (String × ComponentMeta)) (name : String),
      name ∉ comps.map Component.name →
      lookupA (updateEntries fs v ts comps es) name = lookupA es name := by
  intro comps
  induction comps with
  | nil => intro es name _; rfl
  | cons c rest ih =>
      intro es name hname
      have hne : name ≠ c.name := by
        intro he
        exact hname (by simp [he])
      have hrest : name ∉ rest.map Component.name := by
        intro hm
        exact hname (by simp [hm])
      unfold updateEntries
      cases hf : fs.lookupFile c.target with
      | none => exact ih es name hrest
      | some fd =>
          simp only
          cases hl : lookupA es c.name with
          | none =>
              rw [ih _ name hrest, lookupA_setA_ne _ _ _ _ (fun he => hne he.symm)]
          | some cm =>
              rw [ih _ name hrest, lookupA_setA_ne _ _ _ _ (fun he => hne he.symm)]

theorem updateEntries_lookup_target (fs : FS) (v ts : String) :
    ∀ (comps : List Component), (comps.map Component.name).Nodup →
      ∀ (es : List (String × ComponentMeta)) (c : Component), c ∈ comps →
        ∀ fd, fs.lookupFile c.target = some fd →
          ∃ cm, lookupA (updateEntries fs v ts comps es) c.name = some cm ∧
            cm.hash = some (contentHash fd.content) := by
  intro comps
  induction comps with
  | nil => intro _ es c hc; exact absurd hc (by simp)
  | cons c0 rest ih =>
      intro hnd es c hc fd hfd
      have hnd1 : (c0.name :: rest.map Component.name).Nodup := by simpa using hnd
      obtain ⟨hnd0, hndr⟩ := List.nodup_cons.mp hnd1
      rcases List.mem_cons.mp hc with rfl | hcr
      · unfold updateEntries
        rw [hfd]
        simp only
        cases hl : lookupA es c.name with
        | none =>
            rw [updateEntries_preserve fs v ts rest _ c.name hnd0,
              lookupA_setA_self]
            exact ⟨_, rfl, rfl⟩
        | some cm =>
            rw [updateEntries_preserve fs v ts rest _ c.name hnd0,
              lookupA_setA_self]
            exact ⟨_, rfl, rfl⟩
      · unfold updateEntries
        cases hf : fs.lookupFile c0.target with
        | none => exact ih hndr es c hcr fd hfd
        | some fd0 =>
            simp only
            cases hl : lookupA es c0.name with
            | none => exact ih hndr _ c hcr fd hfd
            | some cm0 => exact ih hndr _ c hcr fd hfd

theorem createEntries_lookup_target (fs : FS) (v ts : String) :
    ∀ (comps : List Component), (comps.map Component.name).Nodup →
      ∀ (c : Component), c ∈ comps →
        ∀ fd, fs.lookupFile c.target = some fd →
          lookupA (createEntries fs v ts comps) c.name =
            some ⟨v, some (contentHash fd.content), false, ts, none⟩ := by
  intro comps
  induction comps with
  | nil => intro _ c hc; exact absurd hc (by simp)
  | cons c0 rest ih =>
      intro hnd c hc fd hfd
      have hnd1 : (c0.name :: rest.map Component.name).Nodup := by simpa using hnd
      obtain ⟨hnd0, hndr⟩ := List.nodup_cons.mp hnd1
      rcases List.mem_cons.mp hc with rfl | hcr
      · unfold createEntries
        rw [hfd]
        simp [lookupA]
      · have hne : c.name ≠ c0.name := by
          intro he
          exact hnd0 (he ▸ List.mem_map_of_mem Component.name hcr)
        unfold createEntries
        cases hf : fs.lookupFile c0.target with
        | none => exact ih hndr c hcr fd hfd
        | some fd0 =>
            simp only [lookupA]
            rw [if_neg (show ¬c0.name = c.name from fun he => hne he.symm)]
            exact ih hndr c hcr fd hfd

theorem customizedLoop_empty (fs : FS) (m : Metadata) :
    ∀ (comps : List Component),
      (∀ c ∈ comps, ∀ fd, fs.lookupFile c.target = some fd →
        ∀ cm, lookupA m.installedComponents c.name = some cm →
          cm.hash = some (contentHash fd.content)) →
      customizedLoop fs m comps = [] := by
  intro comps
  induction comps with
  | nil => intro _; rfl
  | cons c rest ih =>
      intro h
      have hrest := fun c hc => h c (List.mem_cons_of_mem _ hc)
      unfold customizedLoop
      cases hl : lookupA m.installedComponents c.name with
      | none => exact ih hrest
      | some cm =>
          simp only
          cases hf : fs.lookupFile c.target with
          | none => exact ih hrest
          | some fd =>
              have heq : cm.hash = some (contentHash fd.content) :=
                h c (List.mem_cons_self c rest) fd hf cm hl
              simp only [heq]
              rw [if_neg (by simp)]
              exact ih hrest

theorem allComponents_names_nodup : (getAllComponents.map Component.name).Nodup := by
  decide

theorem clean_after_updateAfterInstall (st : State) (u : Bool) (ts : String) :
    getCustomizedFiles ((updateAfterInstall st false u ts).1) = [] := by
  unfold updateAfterInstall
  simp only [Bool.false_eq_true, if_false]
  unfold getCustomizedFiles readMetadata
  simp only
  apply customizedLoop_empty
  intro c hc fd hfd cm hcm
  obtain ⟨cm2, hcm2, hh2⟩ :=
    updateEntries_lookup_target st.fs packageVersion ts getAllComponents
      allComponents_names_nodup _ c hc fd hfd
  rw [hcm2] at hcm
  cases hcm
  exact hh2

theorem clean_after_createMetadata (st : State) (ts : String) :
    getCustomizedFiles ((createMetadata st false ts).1) = [] := by
  unfold createMetadata
  simp only [Bool.false_eq_true, if_false]
  unfold getCustomizedFiles readMetadata
  simp only
  apply customizedLoop_empty
  intro c hc fd hfd cm hcm
  rw [createEntries_lookup_target st.fs packageVersion ts getAllComponents
    allComponents_names_nodup c hc fd hfd] at hcm
  cases hcm
  rfl


theorem waitLoop_no_load (probe : Nat → Bool) (timeoutMs : Nat) :
    ∀ (fuel now : Nat), Ev.loadReq ∉ (waitLoop probe timeoutMs now fuel).2.2 := by
  intro fuel
  induction fuel with
  | zero => intro now; simp [waitLoop]
  | succ n ih =>
      intro now
      unfold waitLoop
      split
      · split
        · simp
        · simp only [List.mem_cons]
          intro h
          rcases h with h | h | h
          · exact absurd h (by simp)
          · exact absurd h (by simp)
          · exact ih (now + 1000) h
      · simp

theorem waitLoop_never (probe : Nat → Bool) (h : ∀ t, probe t = false) (T : Nat) :
    ∀ j, j ≤ T →
      (waitLoop probe (T * 1000) ((T - j) * 1000) (j + 1)).1 = false ∧
      (waitLoop probe (T * 1000) ((T - j) * 1000) (j + 1)).2.1 = T * 1000 := by
  intro j
  induction j with
  | zero =>
      intro _
      unfold waitLoop
      rw [if_neg (by omega)]
      exact ⟨rfl, by simp⟩
  | succ n ih =>
      intro hle
      have hlt : (T - (n + 1)) * 1000 < T * 1000 := by omega
      have hstep : (T - (n + 1)) * 1000 + 1000 = (T - n) * 1000 := by omega
      unfold waitLoop
      rw [if_pos hlt, h ((T - (n + 1)) * 1000)]
      simp only [Bool.false_eq_true, if_false, hstep]
      exact ih (by omega)

theorem waitLoop_hit (probe : Nat → Bool) (timeoutMs : Nat) :
    ∀ (fuel k now : Nat), k < fuel → now + k * 1000 < timeoutMs →
      probe (now + k * 1000) = true →
      (waitLoop probe timeoutMs now fuel).1 = true := by
  intro fuel
  induction fuel with
  | zero => intro k now hk; omega
  | succ n ih =>
      intro k now hk hlt hp
      unfold waitLoop
      rw [if_pos (by omega)]
      cases k with
      | zero =>
          simp only [Nat.zero_mul, Nat.add_zero] at hp
          rw [hp]
          rfl
      | succ m =>
          cases hpn : probe now with
          | true => rfl
          | false =>
              simp only [Bool.false_eq_true, if_false]
              have := ih m (now + 1000) (by omega) (by omega)
                (by rw [show now + 1000 + m * 1000 = now + (m + 1) * 1000 by ring]; exact hp)
              simpa using this

theorem updateLoop_dryRun (customized : List String) (ts : String) :
    ∀ (comps : List Component) (st : State),
      (updateLoop customized true ts comps st).1 = st := by
  intro comps
  induction comps with
  | nil => intro st; rfl
  | cons c rest ih =>
      intro st
      unfold updateLoop
      split
      · exact ih st
      · simp only [Bool.not_true, Bool.and_false, Bool.false_eq_true, if_false]
        cases hr : resolveSourcePath st.fs c.source with
        | error e =>
            simp only
            split
            · rfl
            · exact ih st
        | ok src =>
            have hc : copyFile st.fs src c.target true true = .ok (st.fs, true) := rfl
            simp only [hc]
            exact ih st

theorem unload_dryRun_state (st : State) (o : Except String String) (st1 : State)
    (b : Bool) (h : unload st o true = .ok (st1, b)) : st1 = st := by
  unfold unload at h
  split at h
  · simp at h
    exact h.1.symm
  · rw [if_pos rfl] at h
    simp at h
    exact h.1.symm

theorem load_dryRun_state (st : State) (o : Except String String) (st1 : State)
    (b : Bool) (h : load st o true = .ok (st1, b)) : st1 = st := by
  unfold load at h
  split at h
  · simp at h
  · rw [if_pos rfl] at h
    simp at h
    exact h.1.symm

theorem updateStop_dryRun (st : State) (w : Bool) (o : Except String String) :
    (updateStop st w o true).1 = st := by
  unfold updateStop
  split
  · cases hu : unload st o true with
    | ok r => simpa using unload_dryRun_state st o r.1 r.2 (by rw [hu])
    | error e => rfl
  · rfl

theorem updateLoadStep_dryRun (st : State) (w : Bool) (o : Except String String)
    (probe : Nat → Bool) : (updateLoadStep st w true o probe).1 = st := by
  unfold updateLoadStep
  split
  · cases hl : load st o true with
    | ok r =>
        have hr := load_dryRun_state st o r.1 r.2 (by rw [hl])
        simpa using hr
    | error e => rfl
  · rfl

theorem update_dryRun_pure (st : State) (force : Bool) (portOut healthOut : String)
    (uo lo : Except String String) (probe : Nat → Bool) (ts : String) :
    (update st true force portOut healthOut uo lo probe ts).1 = st := by
  unfold update
  by_cases h1 : (!isInstalled st) = true
  · rw [if_pos h1]
  · rw [if_neg h1]
    dsimp only
    by_cases h2 : (getInstalledVersion st == some packageVersion && !force) = true
    · rw [if_pos h2]
    · rw [if_neg h2]
      rw [updateStop_dryRun st (isRunning portOut healthOut) uo]
      cases hL : updateLoop (getCustomizedFiles st) true ts getAllComponents st with
      | mk st2 r2 =>
          have hst2 : st2 = st := by
            have h3 := updateLoop_dryRun (getCustomizedFiles st) ts getAllComponents st
            rw [hL] at h3
            exact h3
          subst hst2
          rcases r2 with ⟨updated, preserved, evs, err⟩
          cases err with
          | none =>
              dsimp only
              unfold updatePlistStep
              rw [show createPlist st2 true = .ok st2 from rfl]
              dsimp only
              rw [show (updateAfterInstall st2 true true ts).1 = st2 from rfl]
              exact updateLoadStep_dryRun st2 _ lo probe
          | some fail => rfl


theorem updateLoop_voices_preserved (st1 : State) (ts srcP : String) (fdS : FileData)
    (hsrc : resolveSourcePath st1.fs "server.ts" = .ok srcP)
    (hsfd : st1.fs.lookupFile srcP = some fdS)
    (hdir : dirname serverPath ∈ st1.fs.dirs ∨ dirname serverPath ∉ st1.fs.unwritable)
    (hnw : serverPath ∉ st1.fs.unwritable) :
    ∃ fs2, updateLoop ["voices"] false ts getAllComponents st1 =
      ({ st1 with fs := fs2 }, ["server"], ["voices"], [Ev.copyReq srcP serverPath], none) ∧
      fs2.lookupFile serverPath = some fdS ∧
      (∀ p, p ≠ serverPath → fs2.lookupFile p = st1.fs.lookupFile p) := by
  obtain ⟨fs2, hcopy, hlook, hunw, hdmem, hframe⟩ :=
    copyFile_success st1.fs srcP serverPath true fdS hsfd (by simp) hdir hnw
  refine ⟨fs2, ?_, hlook, hframe⟩
  have c1 : (List.contains ["voices"] serverComponent.name
      && serverComponent.preserveOnUpdate) = false := rfl
  have c2 : (List.contains ["voices"] serverComponent.name && !false) = false := rfl
  have c3 : (List.contains ["voices"] voicesComponent.name
      && voicesComponent.preserveOnUpdate) = true := rfl
  unfold getAllComponents
  unfold updateLoop
  rw [c1]
  simp only [Bool.false_eq_true, if_false, c2]
  rw [show serverComponent.source = "server.ts" from rfl, hsrc]
  simp only
  rw [show serverComponent.target = serverPath from rfl, hcopy]
  simp only
  unfold updateLoop
  rw [c3]
  simp only [if_true]
  unfold updateLoop
  rfl


theorem backupFile_unwritable (fs : FS) (p ts : String) (fd : FileData)
    (hp : fs.lookupFile p = some fd) (hu : p ++ ".backup-" ++ ts ∈ fs.unwritable) :
    backupFile fs p ts false = (fs, none) := by
  unfold backupFile
  rw [hp]
  simp [hu]

theorem updateLoop_server_backup_failed (st1 : State) (ts srcP : String)
    (fdSrv fdS : FileData)
    (hsv : st1.fs.lookupFile serverPath = some fdSrv)
    (hbak : serverPath ++ ".backup-" ++ ts ∈ st1.fs.unwritable)
    (hsrc : resolveSourcePath st1.fs "server.ts" = .ok srcP)
    (hsfd : st1.fs.lookupFile srcP = some fdS)
    (hdir : dirname serverPath ∈ st1.fs.dirs ∨ dirname serverPath ∉ st1.fs.unwritable)
    (hnw : serverPath ∉ st1.fs.unwritable) :
    ∃ stF up evs, updateLoop ["server"] false ts getAllComponents st1 =
        (stF, up, [], evs, none) ∧
      "server" ∈ up ∧ stF.meta = st1.meta ∧
      stF.fs.lookupFile serverPath = some fdS ∧
      stF.fs.lookupFile (serverPath ++ ".backup-" ++ ts) =
        st1.fs.lookupFile (serverPath ++ ".backup-" ++ ts) := by
  obtain ⟨fs2, hcopy, hlook, hunw, hdmem, hframe⟩ :=
    copyFile_success st1.fs srcP serverPath true fdS hsfd (by simp) hdir hnw
  have hbk := backupFile_unwritable st1.fs serverPath ts fdSrv hsv hbak
  have c1 : (List.contains ["server"] serverComponent.name
      && serverComponent.preserveOnUpdate) = false := rfl
  have c2 : (List.contains ["server"] serverComponent.name && !false) = true := rfl
  have c3 : (List.contains ["server"] voicesComponent.name
      && voicesComponent.preserveOnUpdate) = false := rfl
  have c4 : (List.contains ["server"] voicesComponent.name && !false) = false := rfl
  have hbp : fs2.lookupFile (serverPath ++ ".backup-" ++ ts) =
      st1.fs.lookupFile (serverPath ++ ".backup-" ++ ts) :=
    hframe _ (backupPath_ne_serverPath ts)
  unfold getAllComponents
  unfold updateLoop
  rw [c1]
  simp only [Bool.false_eq_true, if_false, c2, if_true]
  rw [show serverComponent.target = serverPath from rfl,
    show serverComponent.source = "server.ts" from rfl]
  simp only [hbk]
  rw [show ({ st1 with fs := st1.fs } : State) = st1 from rfl]
  rw [hsrc]
  simp only
  rw [hcopy]
  simp only
  unfold updateLoop
  rw [c3]
  simp only [Bool.false_eq_true, if_false, c4]
  cases hv : resolveSourcePath fs2 "voices.json" with
  | error e =>
      rw [show voicesComponent.source = "voices.json" from rfl, hv]
      simp only
      rw [if_neg (show ¬voicesComponent.type = "required" by decide)]
      unfold updateLoop
      refine ⟨{ st1 with fs := fs2 }, ["server"], _, rfl, by simp, rfl, hlook, hbp⟩
  | ok vsrc =>
      rw [show voicesComponent.source = "voices.json" from rfl, hv]
      simp only
      cases hcv : copyFile fs2 vsrc voicesComponent.target false true with
      | error e =>
          simp only
          rw [if_neg (show ¬voicesComponent.type = "required" by decide)]
          unfold updateLoop
          refine ⟨{ st1 with fs := fs2 }, ["server"], _, rfl, by simp, rfl, hlook, hbp⟩
      | ok r =>
          simp only
          unfold updateLoop
          obtain ⟨hunw3, hframe3⟩ :=
            copyFile_ok_frame fs2 vsrc voicesComponent.target true r.1 r.2 (by rw [hcv])
          have hvne1 : serverPath ≠ voicesComponent.target := by decide
          have hvne2 : serverPath ++ ".backup-" ++ ts ≠ voicesComponent.target :=
            backupPath_ne_voicesPath ts
          refine ⟨_, ["server", "voices"], _, rfl, by simp, rfl, ?_, ?_⟩
          · rw [hframe3 serverPath hvne1]
            exact hlook
          · rw [hframe3 _ hvne2]
            exact hbp


theorem updateAfterInstall_record (x : State) (mx : Metadata) (hx : x.meta = some mx)
    (ts : String) :
    (updateAfterInstall x false true ts).1.meta =
      some ((updateAfterInstall x false true ts).2) ∧
    (updateAfterInstall x false true ts).1.fs = x.fs ∧
    (updateAfterInstall x false true ts).2.installedComponents =
      updateEntries x.fs packageVersion ts getAllComponents mx.installedComponents := by
  unfold updateAfterInstall readMetadata
  rw [hx]
  exact ⟨rfl, rfl, rfl⟩

/-- C1 (amended): when the voices component is customized, update leaves
its bytes unchanged and does not copy the shipped content over it, but
updateAfterInstall recomputes its stored hash from the preserved file on
disk, so the new record carries the hash of the customized content and
detectCustomizations immediately after the update reports the component
as clean, not as customized. -/
theorem update_preserved_component (st : State) (portOut healthOut : String)
    (uo lo : Except String String) (probe : Nat → Bool) (ts : String)
    (m : Metadata) (fdv fdS : FileData) (srcP : String)
    (h0 : st.meta = some m)
    (h1 : isInstalled st = true)
    (h2 : m.version ≠ packageVersion)
    (hcust : getCustomizedFiles st = ["voices"])
    (hfdv : st.fs.lookupFile voicesPath = some fdv)
    (hsrc : resolveSourcePath st.fs "server.ts" = .ok srcP)
    (hsfd : st.fs.lookupFile srcP = some fdS)
    (hdir : dirname serverPath ∈ st.fs.dirs ∨ dirname serverPath ∉ st.fs.unwritable)
    (hnw : serverPath ∉ st.fs.unwritable) :
    (update st false false portOut healthOut uo lo probe ts).1.fs.lookupFile voicesPath
        = some fdv ∧
    (∃ m', (update st false false portOut healthOut uo lo probe ts).1.meta = some m' ∧
      ∃ cm', lookupA m'.installedComponents "voices" = some cm' ∧
        cm'.hash = some (contentHash fdv.content)) ∧
    getCustomizedFiles (update st false false portOut healthOut uo lo probe ts).1 = [] ∧
    (update st false false portOut healthOut uo lo probe ts).2.1.preservedComponents
        = ["voices"] ∧
    (update st false false portOut healthOut uo lo probe ts).2.1.updatedComponents
        = ["server"] ∧
    (update st false false portOut healthOut uo lo probe ts).2.1.success = true := by
  obtain ⟨hsfs, hsmeta⟩ := updateStop_frame st (isRunning portOut healthOut) uo false
  obtain ⟨fs2, hLoop, hlook2, hframe2⟩ :=
    updateLoop_voices_preserved ((updateStop st (isRunning portOut healthOut) uo false).1)
      ts srcP fdS (by rw [hsfs]; exact hsrc) (by rw [hsfs]; exact hsfd)
      (by rw [hsfs]; exact hdir) (by rw [hsfs]; exact hnw)
  have hv : (getInstalledVersion st == some packageVersion) = false := by
    simp [getInstalledVersion, readMetadata, h0, h2]
  unfold update
  rw [h1]
  simp only [Bool.not_true, Bool.false_eq_true, if_false, Bool.not_false,
    Bool.and_true, hv]
  rw [hcust, hLoop]
  dsimp only
  set sSt := (updateStop st (isRunning portOut healthOut) uo false).1 with hsSt
  set stT : State := { sSt with fs := fs2 } with hstT
  set s3 := updatePlistStep stT false with hs3
  set s4 := updateAfterInstall s3.1 false true ts with hs4
  set s5 := updateLoadStep s4.1 (isRunning portOut healthOut) false lo probe with hs5
  have h3 := updatePlistStep_frame stT false
  rw [← hs3] at h3
  have h5 := updateLoadStep_frame s4.1 (isRunning portOut healthOut) false lo probe
  rw [← hs5] at h5
  have hstTfs : stT.fs = fs2 := by rw [hstT]
  have hstTm : stT.meta = st.meta := by rw [hstT]; exact hsmeta
  have h3fs : s3.1.fs.lookupFile voicesPath = some fdv := by
    rw [h3.2.2 voicesPath (by decide), hstTfs, hframe2 voicesPath (by decide), hsfs]
    exact hfdv
  have h3m : s3.1.meta = some m := by
    rw [h3.1, hstTm, h0]
  have hrec := updateAfterInstall_record s3.1 m h3m ts
  rw [← hs4] at hrec
  have h4fs : s4.1.fs = s3.1.fs := hrec.2.1
  refine ⟨?_, ?_, ?_, rfl, rfl, rfl⟩
  · rw [h5.1, h4fs]
    exact h3fs
  · refine ⟨s4.2, by rw [h5.2]; exact hrec.1, ?_⟩
    obtain ⟨cm', hcm', hh'⟩ :=
      updateEntries_lookup_target s3.1.fs packageVersion ts getAllComponents
        allComponents_names_nodup m.installedComponents voicesComponent (by decide)
        fdv h3fs
    refine ⟨cm', ?_, hh'⟩
    rw [hrec.2.2]
    exact hcm'
  · rw [getCustomizedFiles_congr s5.1 s4.1 h5.1 h5.2, hs4]
    exact clean_after_updateAfterInstall s3.1 true ts


/-- C10: backupFile never raises: when the source exists but the backup
copy fails, it returns none (after a warning) instead of propagating, and
update proceeds to overwrite the customized non-preservable server
component with the shipped content even though no backup file was
produced. -/
theorem update_backup_failure_proceeds (st : State) (portOut healthOut : String)
    (uo lo : Except String String) (probe : Nat → Bool) (ts : String)
    (m : Metadata) (fdSrv fdS : FileData) (srcP : String)
    (h0 : st.meta = some m)
    (h1 : isInstalled st = true)
    (h2 : m.version ≠ packageVersion)
    (hcust : getCustomizedFiles st = ["server"])
    (hsv : st.fs.lookupFile serverPath = some fdSrv)
    (hbak : serverPath ++ ".backup-" ++ ts ∈ st.fs.unwritable)
    (hbabs : st.fs.lookupFile (serverPath ++ ".backup-" ++ ts) = none)
    (hsrc : resolveSourcePath st.fs "server.ts" = .ok srcP)
    (hsfd : st.fs.lookupFile srcP = some fdS)
    (hdir : dirname serverPath ∈ st.fs.dirs ∨ dirname serverPath ∉ st.fs.unwritable)
    (hnw : serverPath ∉ st.fs.unwritable) :
    backupFile st.fs serverPath ts false = (st.fs, none) ∧
    (update st false false portOut healthOut uo lo probe ts).1.fs.lookupFile serverPath
        = some fdS ∧
    (update st false false portOut healthOut uo lo probe ts).1.fs.lookupFile
        (serverPath ++ ".backup-" ++ ts) = none ∧
    (update st false false portOut healthOut uo lo probe ts).2.1.success = true := by
  obtain ⟨hsfs, hsmeta⟩ := updateStop_frame st (isRunning portOut healthOut) uo false
  obtain ⟨stF, up, evs, hLoop, hup, hFm, hFsrv, hFbak⟩ :=
    updateLoop_server_backup_failed ((updateStop st (isRunning portOut healthOut) uo false).1)
      ts srcP fdSrv fdS (by rw [hsfs]; exact hsv) (by rw [hsfs]; exact hbak)
      (by rw [hsfs]; exact hsrc) (by rw [hsfs]; exact hsfd)
      (by rw [hsfs]; exact hdir) (by rw [hsfs]; exact hnw)
  have hv : (getInstalledVersion st == some packageVersion) = false := by
    simp [getInstalledVersion, readMetadata, h0, h2]
  refine ⟨backupFile_unwritable st.fs serverPath ts fdSrv hsv hbak, ?_⟩
  unfold update
  rw [h1]
  simp only [Bool.not_true, Bool.false_eq_true, if_false, Bool.not_false,
    Bool.and_true, hv]
  rw [hcust, hLoop]
  dsimp only
  set s3 := updatePlistStep stF false with hs3
  set s4 := updateAfterInstall s3.1 false true ts with hs4
  set s5 := updateLoadStep s4.1 (isRunning portOut healthOut) false lo probe with hs5
  have h3 := updatePlistStep_frame stF false
  rw [← hs3] at h3
  have h5 := updateLoadStep_frame s4.1 (isRunning portOut healthOut) false lo probe
  rw [← hs5] at h5
  have hFmSome : stF.meta = some m := by
    rw [hFm, hsmeta, h0]
  have h3m : s3.1.meta = some m := by rw [h3.1, hFmSome]
  have hrec := updateAfterInstall_record s3.1 m h3m ts
  rw [← hs4] at hrec
  have h4fs : s4.1.fs = s3.1.fs := hrec.2.1
  refine ⟨?_, ?_, rfl⟩
  · rw [h5.1, h4fs, h3.2.2 serverPath (by decide), hFsrv]
  · rw [h5.1, h4fs, h3.2.2 _ (backupPath_ne_launchAgentPath ts), hFbak, hsfs]
    exact hbabs


theorem updateAfterInstall_entries (x : State) (u : Bool) (ts : String) :
    ∃ es0, (updateAfterInstall x false u ts).2.installedComponents =
      updateEntries x.fs packageVersion ts getAllComponents es0 := by
  unfold updateAfterInstall readMetadata
  cases hm : x.meta with
  | none => exact ⟨[], rfl⟩
  | some m0 =>
      cases u with
      | true => exact ⟨m0.installedComponents, rfl⟩
      | false => exact ⟨[], rfl⟩

/-- C3: right after a successful (non dry-run) metadata write by
createMetadata or updateAfterInstall, getCustomizedFiles returns the
empty list, and every component that has an entry in the just-written
record and whose target file exists has its stored hash equal to the
hash of the file currently at the target path. -/
theorem metadata_write_then_clean (st : State) (u : Bool) (ts : String) :
    getCustomizedFiles ((updateAfterInstall st false u ts).1) = [] ∧
    getCustomizedFiles ((createMetadata st false ts).1) = [] ∧
    (∀ c ∈ getAllComponents, ∀ cm fd,
      lookupA ((updateAfterInstall st false u ts).2).installedComponents c.name = some cm →
      st.fs.lookupFile c.target = some fd →
      cm.hash = some (contentHash fd.content)) := by
  refine ⟨clean_after_updateAfterInstall st u ts, clean_after_createMetadata st ts, ?_⟩
  intro c hc cm fd hcm hfd
  obtain ⟨es0, hes0⟩ := updateAfterInstall_entries st u ts
  rw [hes0] at hcm
  obtain ⟨cm2, hcm2, hh2⟩ :=
    updateEntries_lookup_target st.fs packageVersion ts getAllComponents
      allComponents_names_nodup es0 c hc fd hfd
  rw [hcm2] at hcm
  cases hcm
  exact hh2

/-- State of a machine with a fresh install of version 1.1.0 whose server
file holds content 5; used to instantiate hypothesis-bearing theorems. -/
def witInstalledSt : State :=
  ⟨⟨[(serverPath, ⟨5, 6⟩)], [installPath], []⟩,
   some { version := packageVersion, installDate := "T0",
          installedComponents := [("server", ⟨packageVersion, some 5, false, "T0", none⟩)] },
   false⟩

theorem metadata_write_then_clean_witness :
    (⟨packageVersion, some (contentHash 5), false, "T0", some "T1"⟩ : ComponentMeta).hash
      = some (contentHash 5) :=
  (metadata_write_then_clean witInstalledSt true "T1").2.2 serverComponent (by decide)
    ⟨packageVersion, some (contentHash 5), false, "T0", some "T1"⟩ ⟨5, 6⟩
    (by decide) (by decide)


theorem removePlist_dryRun (st : State) :
    removePlist st true = .ok (st, (st.fs.lookupFile launchAgentPath).isSome) := by
  cases hL : st.fs.lookupFile launchAgentPath with
  | none => simp [removePlist, hL]
  | some fd => simp [removePlist, hL]

theorem removeFile_dryRun (fs : FS) (p : String) :
    removeFile fs p true = .ok (fs, (fs.lookupFile p).isSome) := by
  cases hL : fs.lookupFile p with
  | none => simp [removeFile, hL]
  | some fd => simp [removeFile, hL]

theorem removeDirectory_dryRun (fs : FS) (p : String) :
    removeDirectory fs p true = .ok (fs, decide (p ∈ fs.dirs)) := by
  by_cases h : p ∈ fs.dirs <;> simp [removeDirectory, h]

theorem stop_dryRun_pure (st : State) (pr1 pr2 : SupProbes)
    (uo : Except String String) : (stop st true pr1 pr2 uo).1 = st := by
  unfold stop
  split
  · rfl
  · dsimp only
    rw [show (!(getStatus st pr1).running && !true) = false by simp]
    simp only [Bool.false_eq_true, if_false]
    cases hu : unload st uo true with
    | ok r => simpa using unload_dryRun_state st uo r.1 r.2 (by rw [hu])
    | error e => rfl

theorem start_dryRun_pure (st : State) (pr : SupProbes)
    (lo : Except String String) (probe : Nat → Bool) :
    (start st true pr lo probe).1 = st := by
  unfold start
  split
  · rfl
  · dsimp only
    rw [show ((getStatus st pr).running && !true) = false by simp]
    simp only [Bool.false_eq_true, if_false]
    cases hl : load st lo true with
    | ok r => simpa using load_dryRun_state st lo r.1 r.2 (by rw [hl])
    | error e => rfl

theorem restart_dryRun_pure (st : State) (pr1 pr2 prS : SupProbes)
    (uo lo : Except String String) (probe : Nat → Bool) :
    (restart st true pr1 pr2 prS uo lo probe).1 = st := by
  unfold restart
  dsimp only
  split
  · exact stop_dryRun_pure st pr1 pr2 uo
  · split
    · rw [start_dryRun_pure (stop st true pr1 pr2 uo).1 prS lo probe]
      exact stop_dryRun_pure st pr1 pr2 uo
    · rw [start_dryRun_pure (stop st true pr1 pr2 uo).1 prS lo probe]
      exact stop_dryRun_pure st pr1 pr2 uo

theorem uninstallStopStep_dryRun (st : State) (a : Bool)
    (o : Except String String) : (uninstallStopStep st a o true).1 = st := by
  unfold uninstallStopStep
  split
  · cases hu : unload st o true with
    | ok r => simpa using unload_dryRun_state st o r.1 r.2 (by rw [hu])
    | error e => rfl
  · rfl

theorem uninstallPlistStep_dryRun (st : State) :
    (uninstallPlistStep st true).1 = st := by
  unfold uninstallPlistStep
  rw [removePlist_dryRun st]

theorem uninstallLogStep_dryRun (st : State) (pl : Bool) :
    (uninstallLogStep st pl true).1 = st := by
  unfold uninstallLogStep
  split
  · rfl
  · rw [removeFile_dryRun st.fs logPath]

theorem uninstall_dryRun_pure (st : State) (pl bk : Bool) (pr : SupProbes)
    (uo : Except String String) (ts : String) :
    (uninstall st true pl bk pr uo ts).1 = st := by
  unfold uninstall
  split
  · rfl
  · dsimp only
    rw [show (bk && !true && !(getCustomizedFiles st).isEmpty) = false by simp]
    simp only [Bool.false_eq_true, if_false]
    rw [uninstallStopStep_dryRun, uninstallPlistStep_dryRun, removeDirectory_dryRun]
    dsimp only
    rw [uninstallLogStep_dryRun]
    simp


/-- C2 (amended): with the dry-run flag set, every mutating file-sync
primitive, the metadata writers, and the update, uninstall, start, stop
and restart orchestrators leave the state unchanged (verify and status
issue no mutating call); however a dry-run copy performs none of the
precondition checks of a real run and reports success unconditionally,
and the install orchestrator is not dry-run pure, since its environment
validation writes to the filesystem even under simulation. -/
theorem dryRun_no_mutation :
    (∀ fs s t ow, copyFile fs s t true ow = .ok (fs, true)) ∧
    (∀ fs p ts, (backupFile fs p ts true).1 = fs) ∧
    (∀ fs p, removeFile fs p true = .ok (fs, (fs.lookupFile p).isSome)) ∧
    (∀ fs p, removeDirectory fs p true = .ok (fs, decide (p ∈ fs.dirs))) ∧
    (∀ st, createPlist st true = .ok st) ∧
    (∀ st, removePlist st true = .ok (st, (st.fs.lookupFile launchAgentPath).isSome)) ∧
    (∀ st u ts, (updateAfterInstall st true u ts).1 = st) ∧
    (∀ st ts, (createMetadata st true ts).1 = st) ∧
    (∀ st force po ho uo lo probe ts,
      (update st true force po ho uo lo probe ts).1 = st) ∧
    (∀ st pl bk pr uo ts, (uninstall st true pl bk pr uo ts).1 = st) ∧
    (∀ st pr lo probe, (start st true pr lo probe).1 = st) ∧
    (∀ st pr1 pr2 uo, (stop st true pr1 pr2 uo).1 = st) ∧
    (∀ st pr1 pr2 prS uo lo probe,
      (restart st true pr1 pr2 prS uo lo probe).1 = st) := by
  refine ⟨fun _ _ _ _ => rfl, ?_, removeFile_dryRun, removeDirectory_dryRun,
    fun _ => rfl, removePlist_dryRun, fun _ _ _ => rfl, fun _ _ => rfl,
    update_dryRun_pure, uninstall_dryRun_pure, start_dryRun_pure,
    stop_dryRun_pure, restart_dryRun_pure⟩
  intro fs p ts
  unfold backupFile
  cases fs.lookupFile p <;> rfl

/-- Environment-probe outcomes where every fatal check passes. -/
def allOkChecks : EnvChecks := ⟨true, true, true, true⟩

/-- Fresh machine carrying only the shipped distribution files: nothing
installed and no claude directory yet. -/
def cexStInstall : State :=
  ⟨⟨[(packageDistDir ++ "/server.ts", ⟨11, 7⟩),
     (packageDistDir ++ "/voices.json", ⟨21, 6⟩)],
    [], []⟩, none, false⟩

/-- C2 is false as stated, on two counts: a dry-run copy with an absent
source file succeeds while the real copy of the same state fails with a
source-missing error; and a dry-run install is not mutation free,
because checkDirectoryPermissions takes no dry-run flag and creates the
claude directory during the pre-flight environment validation. -/
theorem dryRun_claim_cex :
    copyFile ⟨[], [], []⟩ "src/a" "b" true true = .ok (⟨[], [], []⟩, true) ∧
    copyFile ⟨[], [], []⟩ "src/a" "b" false true =
      .error (.sourceMissing "src/a") ∧
    claudeDir ∉ cexStInstall.fs.dirs ∧
    claudeDir ∈
      (install cexStInstall true false allOkChecks (.ok "") (fun _ => false) "T1").1.fs.dirs ∧
    (install cexStInstall true false allOkChecks (.ok "") (fun _ => false) "T1").2.1.success
      = true := by
  refine ⟨rfl, rfl, by decide, by decide, rfl⟩

/-- C5: launchagent.load runs launchctl through exec with ignoreError
set, so a failing launchctl load whose message is not an already-loaded
condition still makes load return success; the rethrow in its catch
branch is unreachable. -/
theorem load_swallows_launchctl_failure :
    load ⟨⟨[(launchAgentPath, generatePlistData)], [], []⟩, none, false⟩
        (.error "Load failed: 5: input-output error") false
      = .ok (⟨⟨[(launchAgentPath, generatePlistData)], [], []⟩, none, false⟩, true) ∧
    exec (.error "Load failed: 5: input-output error") false true true
      = .ok ⟨false, "", "Load failed: 5: input-output error"⟩ :=
  ⟨rfl, rfl⟩

/-- C9: when the installation exists, the recorded version equals the
manifest version and force is off, update returns success with
alreadyUpToDate set, leaves the whole state untouched and issues no
call: the trace is empty. -/
theorem update_alreadyUpToDate (st : State) (dryRun : Bool)
    (portOut healthOut : String) (uo lo : Except String String)
    (probe : Nat → Bool) (ts : String)
    (h1 : isInstalled st = true)
    (h2 : getInstalledVersion st = some packageVersion) :
    update st dryRun false portOut healthOut uo lo probe ts =
      (st, { success := true, alreadyUpToDate := true }, []) := by
  unfold update
  rw [h1]
  simp only [Bool.not_true, Bool.false_eq_true, if_false]
  simp [h2]

theorem update_alreadyUpToDate_witness :
    update witInstalledSt false false "" "" (.ok "") (.ok "") (fun _ => false) "T1" =
      (witInstalledSt, { success := true, alreadyUpToDate := true }, []) :=
  update_alreadyUpToDate witInstalledSt false "" "" (.ok "") (.ok "") (fun _ => false)
    "T1" (by decide) rfl

/-- C6: waitForStart polls every 1000 milliseconds; against a probe that
never succeeds it resolves false exactly when T seconds have elapsed
(within one poll interval of the timeout); if some poll succeeds it
resolves true; and its trace never contains a load request. -/
theorem waitForStart_spec (probe : Nat → Bool) (T : Nat) :
    ((∀ t, probe t = false) →
      (waitForStart probe T).1 = false ∧
      (waitForStart probe T).2.1 = T * 1000 ∧
      T * 1000 ≤ (waitForStart probe T).2.1 ∧
      (waitForStart probe T).2.1 ≤ T * 1000 + 1000) ∧
    ((∃ k, k < T ∧ probe (k * 1000) = true) → (waitForStart probe T).1 = true) ∧
    Ev.loadReq ∉ (waitForStart probe T).2.2 := by
  refine ⟨?_, ?_, ?_⟩
  · intro h
    have hn := waitLoop_never probe h T T (le_refl T)
    simp only [Nat.sub_self, Nat.zero_mul] at hn
    unfold waitForStart
    exact ⟨hn.1, hn.2, by rw [hn.2], by rw [hn.2]; omega⟩
  · rintro ⟨k, hk, hp⟩
    unfold waitForStart
    exact waitLoop_hit probe (T * 1000) (T + 1) k 0 (by omega)
      (by simpa using (by omega : k * 1000 < T * 1000))
      (by simpa using hp)
  · unfold waitForStart
    exact waitLoop_no_load probe (T * 1000) (T + 1) 0

theorem waitForStart_spec_witness :
    (waitForStart (fun _ => false) 2).1 = false ∧
    (waitForStart (fun _ => false) 2).2.1 = 2 * 1000 :=
  have h := (waitForStart_spec (fun _ => false) 2).1 (fun _ => rfl)
  ⟨h.1, h.2.1⟩


/-- Entry test written from the spec wording of detection (section 4.2),
with the preserveOnUpdate filter dropped, as the counterexample below
forces: a component is customized when it has a record entry, its target
file exists, and the recomputed hash differs from the stored one. -/
def isCustomizedEntry (fs : FS) (m : Metadata) (c : Component) : Bool :=
  match lookupA m.installedComponents c.name, fs.lookupFile c.target with
  | some cm, some fd => decide (some (contentHash fd.content) ≠ cm.hash)
  | _, _ => false

/-- Detection result written from the spec wording: the manifest-ordered
names of the components selected by `isCustomizedEntry`. -/
def customizedSpec (st : State) : List String :=
  match readMetadata st with
  | none => []
  | some m => (getAllComponents.filter (isCustomizedEntry st.fs m)).map Component.name

theorem customizedLoop_eq_filter (fs : FS) (m : Metadata) :
    ∀ comps, customizedLoop fs m comps =
      (comps.filter (isCustomizedEntry fs m)).map Component.name := by
  intro comps
  induction comps with
  | nil => rfl
  | cons c rest ih =>
      unfold customizedLoop
      cases h1 : lookupA m.installedComponents c.name with
      | none =>
          simp [List.filter_cons, isCustomizedEntry, h1, ih]
      | some cm =>
          cases h2 : fs.lookupFile c.target with
          | none => simp [List.filter_cons, isCustomizedEntry, h1, h2, ih]
          | some fd =>
              by_cases h3 : some (contentHash fd.content) ≠ cm.hash
              · simp [List.filter_cons, isCustomizedEntry, h1, h2, h3, ih]
              · simp [List.filter_cons, isCustomizedEntry, h1, h2, h3, ih]

/-- C4 (amended): getCustomizedFiles returns exactly the recorded
components whose target file exists and whose recomputed hash differs
from the stored hash, in manifest order, regardless of preserveOnUpdate;
components whose target file is gone are skipped. -/
theorem getCustomizedFiles_eq_spec (st : State) :
    getCustomizedFiles st = customizedSpec st := by
  unfold getCustomizedFiles customizedSpec
  cases readMetadata st with
  | none => rfl
  | some m => exact customizedLoop_eq_filter st.fs m getAllComponents

/-- State whose server file was edited by the user: the stored server
hash is 5 but the file on disk has content 7. -/
def cexStServer : State :=
  ⟨⟨[(serverPath, ⟨7, 6⟩)], [], []⟩,
   some { version := "1.0.0", installDate := "T0",
          installedComponents := [("server", ⟨"1.0.0", some 5, false, "T0", none⟩)] },
   false⟩

/-- C4 is false as stated: the server component has preserveOnUpdate
false, yet it is reported by getCustomizedFiles when its hash differs. -/
theorem getCustomizedFiles_preserveFalse_cex :
    getCustomizedFiles cexStServer = ["server"] ∧
    serverComponent.preserveOnUpdate = false :=
  ⟨rfl, rfl⟩

/-- Command semantics stub used to instantiate the CLI theorems: every
command reports success. -/
def stubRun : String → CliOptions → Except Unit (Option Bool) :=
  fun _ _ => .ok (some true)

/-- C7 is false as stated: an unknown subcommand does not fall back to
the status command; main prints an error and exits with code 1 without
running any command, while an absent subcommand does run status. -/
theorem mainEntry_unknown_cex :
    mainEntry ["frobnicate"] stubRun = (1, none) ∧
    mainEntry [] stubRun = (0, some "status") := by
  constructor <;> rfl

/-- C7 (amended): an absent subcommand falls back to status; an unknown
subcommand exits 1 without executing any command; for a known command
the exit code is 0 unless the command reports success equal to false or
throws, in which case it is 1; help and version exit immediately. -/
theorem mainEntry_dispatch (args : List String)
    (runCmd : String → CliOptions → Except Unit (Option Bool)) :
    (∀ opts, parseArgs args = .parsed none opts →
      mainEntry args runCmd =
        ((match runCmd "status" opts with
          | .ok r => if r = some false then 1 else 0
          | .error _ => 1), some "status")) ∧
    (∀ c opts, parseArgs args = .parsed (some c) opts →
      c ∉ knownCommands → mainEntry args runCmd = (1, none)) ∧
    (∀ c opts, parseArgs args = .parsed (some c) opts →
      c ∈ knownCommands →
      mainEntry args runCmd =
        ((match runCmd c opts with
          | .ok r => if r = some false then 1 else 0
          | .error _ => 1), some c)) ∧
    (∀ code, parseArgs args = .earlyExit code →
      mainEntry args runCmd = (code, none)) := by
  refine ⟨?_, ?_, ?_, ?_⟩
  · intro opts hp
    unfold mainEntry
    rw [hp]
    dsimp only [Option.getD]
    rw [if_neg (show ¬("status" ∉ knownCommands) by decide)]
    cases runCmd "status" opts with
    | ok r => rfl
    | error e => rfl
  · intro c opts hp hc
    unfold mainEntry
    rw [hp]
    dsimp only [Option.getD]
    rw [if_pos hc]
  · intro c opts hp hc
    unfold mainEntry
    rw [hp]
    dsimp only [Option.getD]
    rw [if_neg (by simpa using hc)]
    cases runCmd c opts with
    | ok r => rfl
    | error e => rfl
  · intro code hp
    unfold mainEntry
    rw [hp]

theorem mainEntry_dispatch_witness :
    mainEntry ["--verbose"] stubRun = (0, some "status") := by
  have h := (mainEntry_dispatch ["--verbose"] stubRun).1 { verbose := true } rfl
  simpa using h

/-- C8 is false as stated: with the target present and overwrite off, a
real copy does not fail with an already-exists error; it returns false
and leaves the state unchanged. -/
theorem copyFile_noOverwrite_cex :
    copyFile ⟨[("s", ⟨1, 2⟩), ("t", ⟨3, 4⟩)], [], []⟩ "s" "t" false false =
      .ok (⟨[("s", ⟨1, 2⟩), ("t", ⟨3, 4⟩)], [], []⟩, false) :=
  rfl

/-- C8 (amended): a real copy fails with a source-missing error when the
source is absent; with the target present and overwrite off it skips,
returning false without error; otherwise it copies content and
permission bits to the target, ensures the parent directory, and touches
no other path. -/
theorem copyFile_spec (fs : FS) (s t : String) (ow : Bool) :
    (fs.lookupFile s = none → copyFile fs s t false ow = .error (.sourceMissing s)) ∧
    (∀ fd, fs.lookupFile s = some fd → (fs.lookupFile t).isSome = true →
      copyFile fs s t false false = .ok (fs, false)) ∧
    (∀ fd, fs.lookupFile s = some fd →
      ((fs.lookupFile t).isSome = false ∨ ow = true) →
      (dirname t ∈ fs.dirs ∨ dirname t ∉ fs.unwritable) → t ∉ fs.unwritable →
      ∃ fs1, copyFile fs s t false ow = .ok (fs1, true) ∧
        fs1.lookupFile t = some fd ∧ dirname t ∈ fs1.dirs ∧
        ∀ p, p ≠ t → fs1.lookupFile p = fs.lookupFile p) := by
  refine ⟨?_, ?_, ?_⟩
  · intro h
    unfold copyFile
    rw [h]
    rfl
  · intro fd h hIs
    unfold copyFile
    rw [h]
    simp [hIs]
  · intro fd h hskip hdir hw
    have hsk : ((fs.lookupFile t).isSome && !ow) = false := by
      rcases hskip with h1 | h1 <;> simp [h1]
    obtain ⟨fs1, hc, hl, _, hd, hf⟩ := copyFile_success fs s t ow fd h hsk hdir hw
    exact ⟨fs1, hc, hl, hd, hf⟩

theorem copyFile_spec_witness :
    copyFile ⟨[], [], []⟩ "s" "t" false true = .error (.sourceMissing "s") :=
  (copyFile_spec ⟨[], [], []⟩ "s" "t" true).1 rfl


/-- Filesystem of an installed 1.0.0 machine whose voices file was edited
by the user (stored hash 20, disk content 22) while the shipped 1.1.0
distribution carries new server and voices files. -/
def cexFS1 : FS :=
  ⟨[(serverPath, ⟨10, 7⟩), (voicesPath, ⟨22, 6⟩),
    (packageDistDir ++ "/server.ts", ⟨11, 7⟩),
    (packageDistDir ++ "/voices.json", ⟨21, 6⟩),
    (launchAgentPath, generatePlistData)],
   [installPath, dirname launchAgentPath], []⟩

/-- Record of that machine: both components synced at version 1.0.0. -/
def cexMeta1 : Metadata :=
  { version := "1.0.0", installDate := "T0",
    installedComponents :=
      [("server", ⟨"1.0.0", some 10, false, "T0", none⟩),
       ("voices", ⟨"1.0.0", some 20, false, "T0", none⟩)] }

/-- Installed state with a customized voices file. -/
def cexSt1 : State := ⟨cexFS1, some cexMeta1, false⟩

/-- C1 is false as stated: voices is customized and preserved by the
update (its bytes stay 22), but immediately after the update
detectCustomizations reports it clean, because updateAfterInstall
recomputed the stored hash from the preserved file on disk. -/
theorem update_preserve_detect_cex :
    getCustomizedFiles cexSt1 = ["voices"] ∧
    (update cexSt1 false false "" "" (.ok "") (.ok "") (fun _ => false) "T1").1.fs.lookupFile
        voicesPath = some ⟨22, 6⟩ ∧
    getCustomizedFiles
        (update cexSt1 false false "" "" (.ok "") (.ok "") (fun _ => false) "T1").1 = [] :=
  ⟨rfl, rfl, rfl⟩

theorem update_preserved_component_witness :
    (update cexSt1 false false "" "" (.ok "") (.ok "") (fun _ => false) "T1").2.1.preservedComponents
      = ["voices"] :=
  (update_preserved_component cexSt1 "" "" (.ok "") (.ok "") (fun _ => false) "T1"
    cexMeta1 ⟨22, 6⟩ ⟨11, 7⟩ (packageDistDir ++ "/server.ts")
    rfl rfl (by decide) rfl rfl rfl rfl (by decide) (by decide)).2.2.2.1

/-- Filesystem of an installed 1.0.0 machine whose server file was edited
by the user (stored hash 10, disk content 12) and where the timestamped
backup target of the server file is unwritable. -/
def cexFS10 : FS :=
  ⟨[(serverPath, ⟨12, 7⟩), (voicesPath, ⟨20, 6⟩),
    (packageDistDir ++ "/server.ts", ⟨11, 7⟩),
    (packageDistDir ++ "/voices.json", ⟨21, 6⟩),
    (launchAgentPath, generatePlistData)],
   [installPath, dirname launchAgentPath],
   [serverPath ++ ".backup-" ++ "T1"]⟩

/-- Record of that machine: both components synced at version 1.0.0. -/
def cexMeta10 : Metadata :=
  { version := "1.0.0", installDate := "T0",
    installedComponents :=
      [("server", ⟨"1.0.0", some 10, false, "T0", none⟩),
       ("voices", ⟨"1.0.0", some 20, false, "T0", none⟩)] }

/-- Installed state with a customized server file and a failing backup
destination. -/
def cexSt10 : State := ⟨cexFS10, some cexMeta10, false⟩

theorem update_backup_failure_witness :
    (update cexSt10 false false "" "" (.ok "") (.ok "") (fun _ => false) "T1").1.fs.lookupFile
        serverPath = some ⟨11, 7⟩ :=
  (update_backup_failure_proceeds cexSt10 "" "" (.ok "") (.ok "") (fun _ => false) "T1"
    cexMeta10 ⟨12, 7⟩ ⟨11, 7⟩ (packageDistDir ++ "/server.ts")
    rfl rfl (by decide) rfl rfl (by decide) rfl rfl rfl (by decide) (by decide)).2.1

end Pai
